import Mathlib

/-!
# Verification of the gedi-database ingestion pipeline

A shallow embedding, in Lean 4, of the data model and the operations of the
`gedidb` repository (granule quality filtering, cross-product join, content
hashing, granule-key resolution, transactional write, and the shape utilities),
together with theorems settling the specification claims about them.

Conventions used throughout:
* pandas/geopandas data frames are modelled by `DFrame`: a list of column
  names plus a list of rows, each row an association list from column name to
  a rational value (floating point columns are modelled by `ℚ`).
* Python exceptions are modelled by `Except String`; a pandas `KeyError` on a
  missing column is the error string `"KeyError: <column>"`.
* Functions keep the names of the Python functions they translate.
-/

/-! ## Data frame model (pandas/geopandas tables) -/

/-- One table row: an association list from column name to (numeric) value.
Columns irrelevant to the verified claims (strings, timestamps, geometry)
are omitted; all modelled values are `ℚ`. -/
abbrev Row : Type := List (String × ℚ)

/-- Value of column `c` in row `r` (first matching entry; `0` when absent —
absence is always guarded by a column-existence check on the frame, mirroring
pandas raising `KeyError` at the frame level). -/
def rowGet (r : Row) (c : String) : ℚ :=
  match r.find? (fun e => e.1 == c) with
  | some e => e.2
  | none => 0

/-- Replace the value of column `c` in row `r` (append when absent). -/
def rowSet : Row → String → ℚ → Row
  | [], c, v => [(c, v)]
  | e :: es, c, v => if e.1 == c then (c, v) :: es else e :: rowSet es c v

/-- A pandas `DataFrame`: column names plus rows.  Rows are kept in
correspondence with `columns` by construction. -/
structure DFrame where
  columns : List String
  rows : List Row
deriving DecidableEq

/-- `df[c]`: the column values, or a `KeyError` when the column is absent
(pandas raises `KeyError` regardless of the number of rows). -/
def dfCol (t : DFrame) (c : String) : Except String (List ℚ) :=
  if c ∈ t.columns then .ok (t.rows.map (fun r => rowGet r c))
  else .error ("KeyError: " ++ c)

/-- `df[c] = values`: set (or add) a column. -/
def dfSetCol (t : DFrame) (c : String) (vs : List ℚ) : DFrame :=
  { columns := if c ∈ t.columns then t.columns else t.columns ++ [c],
    rows := (t.rows.zip vs).map (fun p => rowSet p.1 c p.2) }

/-- `df[mask]`: keep the rows whose mask entry is `true`. -/
def dfFilterRows (t : DFrame) (mask : List Bool) : DFrame :=
  { columns := t.columns,
    rows := (t.rows.zip mask).filterMap (fun p => if p.2 then some p.1 else none) }

/-- `df.drop(cs, axis=1)`: remove columns (`KeyError` when one is absent). -/
def dfDrop (t : DFrame) (cs : List String) : Except String DFrame :=
  if cs.all (fun c => t.columns.contains c) then
    .ok { columns := t.columns.filter (fun c => !(cs.contains c)),
          rows := t.rows.map (fun r => r.filter (fun e => !(cs.contains e.1))) }
  else .error ("KeyError: drop")

/-! ## Quality filters

Translated from `src/gedidb/granule/gedi_l2a.py` (`L2ABeam.quality_filter`)
and `src/gedidb/granule/gedi_l4a.py` (`L4ABeam.quality_filter`).  The boolean
column-mask conjunctions of the source are evaluated row-wise (semantically
identical); each column referenced by the source is looked up on the frame
first, so that a missing column raises the same `KeyError` the source would.
Each filter is factored into its row-selection stage (`..FilterRows`, the
source lines up to and including the boolean indexing) followed by the
`drop` of the quality-only columns, exactly as in the source. -/

/-- `QDEGRADE` whitelist from `src/gedidb/granule/gedi_granule.py`. -/
def QDEGRADE : List ℚ :=
  [0, 3, 8, 10, 13, 18, 20, 23, 28, 30, 33, 38, 40, 43, 48, 60, 63, 68]

/-- The L2A row predicate: the conjunction of the boolean masks of
`L2ABeam.quality_filter`, evaluated on one row. -/
def l2aRowPred (r : Row) : Bool :=
  decide (rowGet r "quality_flag" = 1
    ∧ (0.9 : ℚ) ≤ rowGet r "sensitivity_a0"
    ∧ rowGet r "sensitivity_a0" ≤ 1
    ∧ (0.95 : ℚ) < rowGet r "sensitivity_a2"
    ∧ rowGet r "sensitivity_a2" ≤ 1
    ∧ rowGet r "degrade_flag" ∈ QDEGRADE
    ∧ (0 : ℚ) ≤ rowGet r "rh_100"
    ∧ rowGet r "rh_100" < 120
    ∧ rowGet r "surface_flag" = 1
    ∧ (-150 : ℚ) < rowGet r "elevation_difference_tdx"
    ∧ rowGet r "elevation_difference_tdx" < 150)

/-- The boolean-mask block of `L2ABeam.quality_filter` on the frame that
already carries the derived column: look up each referenced column (a
missing one raises `KeyError`, as in pandas), then keep the rows passing
the mask. -/
def l2aGuards (t1 : DFrame) : Except String DFrame :=
  dfCol t1 "quality_flag" >>= fun _ =>
  dfCol t1 "sensitivity_a0" >>= fun _ =>
  dfCol t1 "sensitivity_a2" >>= fun _ =>
  dfCol t1 "degrade_flag" >>= fun _ =>
  dfCol t1 "rh_100" >>= fun _ =>
  dfCol t1 "surface_flag" >>= fun _ =>
  .ok (dfFilterRows t1 (t1.rows.map l2aRowPred))

/-- `L2ABeam.quality_filter`, derived-column and row-selection stage:
computes `elevation_difference_tdx` and keeps the rows passing the mask
(the trailing column drop is in `l2aQualityFilter`). -/
def l2aFilterRows (t : DFrame) : Except String DFrame :=
  dfCol t "elev_lowestmode" >>= fun elev =>
  dfCol t "dem_tandemx" >>= fun dem =>
  l2aGuards (dfSetCol t "elevation_difference_tdx"
    (List.zipWith (fun a b => a - b) elev dem))

/-- `L2ABeam.quality_filter` (`src/gedidb/granule/gedi_l2a.py`, lines 72-98):
row selection followed by the drop of the quality-only columns. -/
def l2aQualityFilter (t : DFrame) : Except String DFrame :=
  l2aFilterRows t >>= fun f =>
  dfDrop f ["elevation_difference_tdx", "quality_flag", "surface_flag"]

/-- First L4A selection block of `L4ABeam.quality_filter`. -/
def l4aRowPred1 (r : Row) : Bool :=
  decide (rowGet r "l2_quality_flag" = 1
    ∧ rowGet r "l4_quality_flag" = 1
    ∧ rowGet r "algorithm_run_flag" = 1
    ∧ (0.9 : ℚ) ≤ rowGet r "sensitivity_a0"
    ∧ rowGet r "sensitivity_a0" ≤ 1
    ∧ rowGet r "sensitivity_a2" ≤ 1
    ∧ rowGet r "degrade_flag" ∈ QDEGRADE
    ∧ rowGet r "surface_flag" = 1)

/-- Second L4A selection block (plant-functional-type dependent sensitivity). -/
def l4aRowPred2 (r : Row) : Bool :=
  decide ((rowGet r "gridded_pft_class" = 2
            ∧ (0.98 : ℚ) < rowGet r "sensitivity_a2")
    ∨ (rowGet r "gridded_pft_class" ≠ 2
            ∧ (0.95 : ℚ) < rowGet r "sensitivity_a2"))

/-- Third L4A selection block (land-cover exclusions). -/
def l4aRowPred3 (r : Row) : Bool :=
  decide (rowGet r "gridded_water_persistence" < 10
    ∧ rowGet r "gridded_urban_proportion" < 50)

/-- Third selection of `L4ABeam.quality_filter` (land-cover exclusions) on
the twice-filtered frame. -/
def l4aStage3 (t2 : DFrame) : Except String DFrame :=
  dfCol t2 "gridded_water_persistence" >>= fun _ =>
  dfCol t2 "gridded_urban_proportion" >>= fun _ =>
  .ok (dfFilterRows t2 (t2.rows.map l4aRowPred3))

/-- Second selection of `L4ABeam.quality_filter` (the plant-functional-type
block) on the once-filtered frame, followed by the third. -/
def l4aStage2 (t1 : DFrame) : Except String DFrame :=
  dfCol t1 "gridded_pft_class" >>= fun _ =>
  dfCol t1 "sensitivity_a2" >>= fun _ =>
  l4aStage3 (dfFilterRows t1 (t1.rows.map l4aRowPred2))

/-- `L4ABeam.quality_filter`, row-selection stage: the three successive
boolean selections of the source (the trailing column drop is in
`l4aQualityFilter`). -/
def l4aFilterRows (t : DFrame) : Except String DFrame :=
  dfCol t "l2_quality_flag" >>= fun _ =>
  dfCol t "l4_quality_flag" >>= fun _ =>
  dfCol t "algorithm_run_flag" >>= fun _ =>
  dfCol t "sensitivity_a0" >>= fun _ =>
  dfCol t "sensitivity_a2" >>= fun _ =>
  dfCol t "degrade_flag" >>= fun _ =>
  dfCol t "surface_flag" >>= fun _ =>
  l4aStage2 (dfFilterRows t (t.rows.map l4aRowPred1))

/-- `L4ABeam.quality_filter` (`src/gedidb/granule/gedi_l4a.py`, lines 86-127):
row selection followed by the drop of the quality-only columns. -/
def l4aQualityFilter (t : DFrame) : Except String DFrame :=
  l4aFilterRows t >>= fun f =>
  dfDrop f ["l2_quality_flag", "l4_quality_flag", "algorithm_run_flag",
            "surface_flag"]

/-! ## Decidable equality for `Except` results (for concrete evaluation) -/

instance {e a : Type} [DecidableEq e] [DecidableEq a] : DecidableEq (Except e a) := fun x y =>
  match x, y with
  | .ok u, .ok v => decidable_of_iff (u = v) (by simp)
  | .error u, .error v => decidable_of_iff (u = v) (by simp)
  | .ok _, .error _ => isFalse (by simp)
  | .error _, .ok _ => isFalse (by simp)

/-! ## Cross-product join on the shot identifier

Translated from the join step of `_process_granule`
(`src/gedidb/pipeline/data_setup.py`, lines 215-230): the L2A table is
inner-joined with the L2B table set-indexed on `shot_number`, then with the
L4A table likewise.  A pandas `a.join(b.set_index(k), on=k, how="inner")`
produces, for each row of `a`, one combined row per row of `b` with an equal
key; `set_index` removes the key column from the right table, so the combined
row keeps the left row's `shot_number` entry.  The geometry-column drop and
the `granule` column of the source do not affect row multiplicity and are
omitted. -/

/-- A row's `shot_number` value. -/
def rowShot (r : Row) : ℚ := rowGet r "shot_number"

/-- `a.join(b.set_index("shot_number"), on="shot_number", how="inner")`. -/
def joinInner (A B : List Row) : List Row :=
  A.flatMap (fun a =>
    (B.filter (fun b => decide (rowShot b = rowShot a))).map
      (fun b => a ++ b.filter (fun e => !(e.1 == "shot_number"))))

/-- The three-way inner join of `_process_granule`. -/
def joinThree (l2a l2b l4a : List Row) : List Row :=
  joinInner (joinInner l2a l2b) l4a

/-! ## Per-granule parse loop

Translated from `granule_parser._parse`
(`src/gedidb/granule/granule_parser.py`, lines 46-61).  Each beam's
extraction/filtering is summarized by its outcome: `.ok` with the beam's
table (a list of rows), or `.error` for the `KeyError` a missing field
raises; the loop skips failed beams (`except KeyError: continue`) and
`pd.concat` raises `ValueError` when the collected list is empty. -/

/-- `_parse`: collect the per-beam tables, skipping beams that raised
`KeyError`, then concatenate; `pd.concat` on an empty list raises. -/
def _parse (beams : List (Except Unit (List Row))) : Except String (List Row) :=
  let granule_data := beams.filterMap (fun r =>
    match r with
    | .ok t => some t
    | .error _ => none)
  if granule_data.isEmpty then .error ("ValueError: No objects to concatenate")
  else .ok granule_data.flatten

/-! ## Python string ordering and `sorted`

`_process_granule` sorts the contributing filenames with Python's built-in
`sorted`, which orders strings lexicographically by code point.  `pySorted`
is an executable model of that ordering (insertion sort; for a total
antisymmetric order the sorted permutation is unique, so any correct sort
agrees with CPython's). -/

/-- Python `str` less-than: lexicographic by code point. -/
def strLtChars : List Char → List Char → Bool
  | [], [] => false
  | [], _ :: _ => true
  | _ :: _, [] => false
  | a :: as, b :: bs => if a < b then true else if b < a then false else strLtChars as bs

/-- Python `str` less-or-equal. -/
def pyStrLe (s t : String) : Bool := !(strLtChars t.data s.data)

/-- Insert into a sorted list (auxiliary to `pySorted`). -/
def insertSorted (a : String) : List String → List String
  | [] => [a]
  | b :: bs => if pyStrLe a b then a :: b :: bs else b :: insertSorted a bs

/-- Python's built-in `sorted` on strings. -/
def pySorted : List String → List String
  | [] => []
  | a :: as => insertSorted a (pySorted as)

/-! ## MD5 and the content hash

`hash_string_list` (`src/gedidb/pipeline/data_setup.py`, lines 25-27) length-
prefixes each filename, joins with commas, UTF-8 encodes, and takes the MD5
hex digest.  MD5 is implemented below over `ℕ` with explicit reduction
modulo `2 ^ 32` (RFC 1321: little-endian padding, the standard shift and
sine-derived constant tables, 64 rounds per 512-bit chunk). -/

/-- Per-round left-rotation amounts (RFC 1321). -/
def md5S : List ℕ :=
  [7, 12, 17, 22, 7, 12, 17, 22, 7, 12, 17, 22, 7, 12, 17, 22,
   5, 9, 14, 20, 5, 9, 14, 20, 5, 9, 14, 20, 5, 9, 14, 20,
   4, 11, 16, 23, 4, 11, 16, 23, 4, 11, 16, 23, 4, 11, 16, 23,
   6, 10, 15, 21, 6, 10, 15, 21, 6, 10, 15, 21, 6, 10, 15, 21]

/-- Sine-derived additive constants (RFC 1321). -/
def md5K : List ℕ :=
  [3614090360, 3905402710, 606105819, 3250441966, 4118548399, 1200080426, 2821735955, 4249261313,
   1770035416, 2336552879, 4294925233, 2304563134, 1804603682, 4254626195, 2792965006, 1236535329,
   4129170786, 3225465664, 643717713, 3921069994, 3593408605, 38016083, 3634488961, 3889429448,
   568446438, 3275163606, 4107603335, 1163531501, 2850285829, 4243563512, 1735328473, 2368359562,
   4294588738, 2272392833, 1839030562, 4259657740, 2763975236, 1272893353, 4139469664, 3200236656,
   681279174, 3936430074, 3572445317, 76029189, 3654602809, 3873151461, 530742520, 3299628645,
   4096336452, 1126891415, 2878612391, 4237533241, 1700485571, 2399980690, 4293915773, 2240044497,
   1873313359, 4264355552, 2734768916, 1309151649, 4149444226, 3174756917, 718787259, 3951481745]

/-- Rotate a 32-bit word left by `s` bits. -/
def rotl32 (x s : ℕ) : ℕ := ((x <<< s) ||| (x >>> (32 - s))) % 4294967296

/-- One MD5 round applied to the running `(a, b, c, d)` state. -/
def md5Op (M : List ℕ) (st : ℕ × ℕ × ℕ × ℕ) (i : ℕ) : ℕ × ℕ × ℕ × ℕ :=
  let a := st.1
  let b := st.2.1
  let c := st.2.2.1
  let d := st.2.2.2
  let fg : ℕ × ℕ :=
    if i < 16 then ((b &&& c) ||| ((4294967295 - b) &&& d), i)
    else if i < 32 then ((d &&& b) ||| ((4294967295 - d) &&& c), (5 * i + 1) % 16)
    else if i < 48 then (b ^^^ c ^^^ d, (3 * i + 5) % 16)
    else (c ^^^ (b ||| (4294967295 - d)), (7 * i) % 16)
  let f := (fg.1 + a + md5K.getD i 0 + M.getD fg.2 0) % 4294967296
  (d, (b + rotl32 f (md5S.getD i 0)) % 4294967296, b, c)

/-- Process one 64-byte chunk. -/
def md5Chunk (st : ℕ × ℕ × ℕ × ℕ) (chunk : List ℕ) : ℕ × ℕ × ℕ × ℕ :=
  let M := (List.range 16).map (fun j =>
    chunk.getD (4 * j) 0 + 256 * chunk.getD (4 * j + 1) 0 +
    65536 * chunk.getD (4 * j + 2) 0 + 16777216 * chunk.getD (4 * j + 3) 0)
  let r := (List.range 64).foldl (md5Op M) st
  ((st.1 + r.1) % 4294967296, (st.2.1 + r.2.1) % 4294967296,
   (st.2.2.1 + r.2.2.1) % 4294967296, (st.2.2.2 + r.2.2.2) % 4294967296)

/-- Little-endian byte expansion (`n` bytes). -/
def leBytes (n x : ℕ) : List ℕ := (List.range n).map (fun i => x / 256 ^ i % 256)

/-- MD5 padding: `0x80`, zeros to 56 mod 64, then the 64-bit bit length. -/
def md5Pad (msg : List ℕ) : List ℕ :=
  msg ++ [128] ++ List.replicate ((119 - msg.length % 64) % 64) 0 ++
    leBytes 8 (8 * msg.length % 2 ^ 64)

/-- MD5 digest (16 bytes) of a byte list. -/
def md5Bytes (msg : List ℕ) : List ℕ :=
  let padded := md5Pad msg
  let st := (List.range (padded.length / 64)).foldl
    (fun st i => md5Chunk st ((padded.drop (64 * i)).take 64))
    (1732584193, 4023233417, 2562383102, 271733878)
  leBytes 4 st.1 ++ leBytes 4 st.2.1 ++ leBytes 4 st.2.2.1 ++ leBytes 4 st.2.2.2

/-- Lowercase hex digit. -/
def hexChar (n : ℕ) : Char := "0123456789abcdef".data.getD n '0'

/-- `hashlib.md5(..).hexdigest()`. -/
def md5Hex (msg : List ℕ) : String :=
  String.mk ((md5Bytes msg).flatMap (fun b => [hexChar (b / 16), hexChar (b % 16)]))

/-- UTF-8 encoding of one character. -/
def utf8Char (c : Char) : List ℕ :=
  let n := c.toNat
  if n < 128 then [n]
  else if n < 2048 then [192 + n / 64, 128 + n % 64]
  else if n < 65536 then [224 + n / 4096, 128 + n / 64 % 64, 128 + n % 64]
  else [240 + n / 262144, 128 + n / 4096 % 64, 128 + n / 64 % 64, 128 + n % 64]

/-- `str.encode("utf-8")`. -/
def utf8Bytes (s : String) : List ℕ := s.data.flatMap utf8Char

/-- `hash_string_list` (`src/gedidb/pipeline/data_setup.py`, lines 25-27). -/
def hash_string_list (string_list : List String) : String :=
  md5Hex (utf8Bytes (String.intercalate ","
    (string_list.map (fun item => toString item.length ++ ":" ++ item))))

/-! ## Granule assembly and the transactional write

`_process_granule` sorts the contributing filenames and derives the
content-hash-named artifact; `_write_db` writes the ledger row and the shot
rows inside one `engine.begin()` transaction scope
(`src/gedidb/pipeline/data_setup.py`, lines 160-170 and 246-298). -/

/-- The three GEDI products of the pipeline.  Modelled from the spec:
`constants.GediProduct` is referenced by the pipeline but `constants.py` is
not among the sources; the spec fixes exactly three required products. -/
inductive GediProduct
  | L2A
  | L2B
  | L4A
deriving DecidableEq

/-- `included_files` of `_process_granule`: the sorted list of the
contributing files' names. -/
def includedFiles (granules : List (GediProduct × String)) : List String :=
  pySorted (granules.map (fun fname => fname.2))

/-- The content-hash-named per-granule artifact file name of
`_process_granule`. -/
def outfileName (granule_key : String) (included_files : List String) : String :=
  "filtered_l2ab_l4a_" ++ granule_key ++ "_" ++ hash_string_list included_files
    ++ ".parquet"

/-- One row of the `gedi_granules` ledger table (`created_date` omitted:
a wall-clock timestamp).  -/
structure LedgerEntry where
  granule_name : String
  granule_hash : String
  granule_file : String
  l2a_file : String
  l2b_file : String
  l4a_file : String
deriving DecidableEq

/-- The `granule_entry` data frame built by `_write_db`: the three file
columns are filled positionally from the sorted `included_files` list. -/
def mkGranuleEntry (granule_key : String) (included_files : List String)
    (outfile_name : String) : LedgerEntry :=
  { granule_name := granule_key,
    granule_hash := hash_string_list included_files,
    granule_file := outfile_name,
    l2a_file := included_files.getD 0 "",
    l2b_file := included_files.getD 1 "",
    l4a_file := included_files.getD 2 "" }

/-- The spatial store: the granule ledger and the shot table. -/
structure DBState where
  gedi_granules : List LedgerEntry
  shots : List Row
deriving DecidableEq

/-- `granule_entry.to_sql(name="gedi_granules", if_exists="append")`. -/
def insertLedger (e : LedgerEntry) (db : DBState) : DBState :=
  { db with gedi_granules := db.gedi_granules ++ [e] }

/-- `gedi_data.to_postgis(name="filtered_l2ab_l4a_shots", if_exists="append")`. -/
def insertShots (rows : List Row) (db : DBState) : DBState :=
  { db with shots := db.shots ++ rows }

/-- Semantics of SQLAlchemy's `with engine.begin() as conn:` scope: the
operations of the block are applied only if none raises; an exception at any
operation (injected as `failAt = some k` for an in-range `k`) rolls the whole
transaction back, leaving the store unchanged. -/
def runTransaction (db : DBState) (ops : List (DBState → DBState))
    (failAt : Option ℕ) : DBState :=
  match failAt with
  | some k => if k < ops.length then db else ops.foldl (fun s f => f s) db
  | none => ops.foldl (fun s f => f s) db

/-- `_write_db` (`src/gedidb/pipeline/data_setup.py`, lines 246-298).  The
artifact read outcome is `artifact` (`.error` for a corrupted parquet file,
whereupon the file is deleted and the store left untouched); an empty table
returns without writing; otherwise the ledger insert and the shot insert run
inside one transaction.  The column remapping and integer coercion applied
to the shot rows before writing do not affect which rows are written and are
not modelled. -/
def _write_db (db : DBState) (granule_key outfile_name : String)
    (included_files : List String) (artifact : Except Unit (List Row))
    (failAt : Option ℕ) : DBState :=
  match artifact with
  | .error _ => db
  | .ok rows =>
    if rows.isEmpty then db
    else runTransaction db
      [insertLedger (mkGranuleEntry granule_key included_files outfile_name),
       insertShots rows] failAt

/-! ## Granule filename grammar and the granule key

Translated from `src/gedidb/granule/granule_name.py` and
`_get_granule_key_for_filename` (`src/gedidb/pipeline/data_setup.py`,
lines 37-39).  The two regular expressions are fixed positional patterns
over underscore-separated fields; `lpGroups`/`ornlGroups` are executable
models of `re.search` with those patterns, specialized to filenames in the
underscore-separated archive format, on which the match and its groups are
unique.  Each returns the capture groups in pattern order.

The Python dataclasses are populated positionally
(`GediLPNameMetadata(*parse_result.groups())`): the argument order is the
dataclass field order — the eleven inherited `GediNameMetadata` fields
first, then the subclass fields — while the groups arrive in pattern order.
`mkLPFromGroups`/`mkORNLFromGroups` reproduce that positional assignment
exactly, so (as in the source) the eighth LP group, the two-digit sub-orbit
segment, lands in `ground_track`, and `sub_orbit_granule` receives the
twelfth group, the granule production version. -/

/-- `GediNameMetadata` dataclass: fields in declaration order. -/
structure GediNameMetadata where
  product : String
  year : String
  julian_day : String
  hour : String
  minute : String
  second : String
  orbit : String
  ground_track : String
  positioning : String
  granule_production_version : String
  release_number : String
deriving DecidableEq

/-- `GediLPNameMetadata`: the LP DAAC naming dataclass (two extra fields,
after the inherited ones). -/
structure GediLPNameMetadata extends GediNameMetadata where
  sub_orbit_granule : String
  pge_version_number : String
deriving DecidableEq

/-- `GediORNLNameMetadata`: the ORNL DAAC naming dataclass (no extra
fields; in particular, no `sub_orbit_granule`). -/
structure GediORNLNameMetadata extends GediNameMetadata where
deriving DecidableEq

/-- Split a character list at underscores (Python `str.split("_")` on the
filename's characters). -/
def splitUnderscores : List Char → List (List Char)
  | [] => [[]]
  | c :: cs =>
    let r := splitUnderscores cs
    if c == '_' then [] :: r
    else
      match r with
      | [] => [[c]]
      | g :: gs => (c :: g) :: gs

/-- A regex `\w` character. -/
def isWordChar (c : Char) : Bool := c.isAlphanum || c == '_'

/-- Exactly `n` decimal digits. -/
def digitsLen (cs : List Char) (n : ℕ) : Bool :=
  cs.length == n && cs.all Char.isDigit

/-- A tag character followed by one or more digits (`O\d+` / `T\d+`). -/
def tagDigits (tag : Char) : List Char → Bool
  | c :: ds => c == tag && !ds.isEmpty && ds.all Char.isDigit
  | [] => false

/-- Longest digit run at the front (a trailing `\d+` group of a `re.search`
match may be followed by unmatched text such as `.h5`). -/
def takeLeadingDigits (cs : List Char) : List Char :=
  cs.takeWhile Char.isDigit

/-- Capture groups of the LP pattern
`(\w+_\w)_(\d{4})(\d{3})(\d{2})(\d{2})(\d{2})_(O\d+)_(\d{2})_(T\d+)_(\d{2})_(\d{3})_(\d{2})_(V\d+)`
on an underscore-separated archive filename, in pattern order. -/
def lpGroups (filename : String) : Option (List String) :=
  match splitUnderscores filename.data with
  | [p1, p2, ts, orb, sub, trk, pos, pge, gpv, rel] =>
    if !p1.isEmpty && p1.all isWordChar
        && p2.length == 1 && p2.all isWordChar
        && digitsLen ts 13
        && tagDigits 'O' orb
        && digitsLen sub 2
        && tagDigits 'T' trk
        && digitsLen pos 2
        && digitsLen pge 3
        && digitsLen gpv 2
        && (match rel with
            | c :: rest => c == 'V' && !(takeLeadingDigits rest).isEmpty
            | [] => false)
    then some [String.mk (p1 ++ '_' :: p2), String.mk (ts.take 4),
               String.mk ((ts.drop 4).take 3), String.mk ((ts.drop 7).take 2),
               String.mk ((ts.drop 9).take 2), String.mk ((ts.drop 11).take 2),
               String.mk orb, String.mk sub, String.mk trk, String.mk pos,
               String.mk pge, String.mk gpv,
               String.mk ('V' :: takeLeadingDigits (rel.drop 1))]
    else none
  | _ => none

/-- Capture groups of the ORNL pattern
`(\w+_\w)_(\d{4})(\d{3})(\d{2})(\d{2})(\d{2})_(O\d+)_(T\d+)_(\d{2})_(\d{3})_(\d{2})`
on an underscore-separated archive filename, in pattern order. -/
def ornlGroups (filename : String) : Option (List String) :=
  match splitUnderscores filename.data with
  | [p1, p2, ts, orb, trk, pos, rel, gpv] =>
    if !p1.isEmpty && p1.all isWordChar
        && p2.length == 1 && p2.all isWordChar
        && digitsLen ts 13
        && tagDigits 'O' orb
        && tagDigits 'T' trk
        && digitsLen pos 2
        && digitsLen rel 3
        && digitsLen (takeLeadingDigits gpv) 2
    then some [String.mk (p1 ++ '_' :: p2), String.mk (ts.take 4),
               String.mk ((ts.drop 4).take 3), String.mk ((ts.drop 7).take 2),
               String.mk ((ts.drop 9).take 2), String.mk ((ts.drop 11).take 2),
               String.mk orb, String.mk trk, String.mk pos, String.mk rel,
               String.mk (takeLeadingDigits gpv)]
    else none
  | _ => none

/-- `GediLPNameMetadata(*parse_result.groups())`: positional assignment of
the thirteen pattern-order groups to the thirteen fields in dataclass field
order (inherited fields first). -/
def mkLPFromGroups : List String → Option GediLPNameMetadata
  | [g1, g2, g3, g4, g5, g6, g7, g8, g9, g10, g11, g12, g13] =>
    some { product := g1, year := g2, julian_day := g3, hour := g4,
           minute := g5, second := g6, orbit := g7, ground_track := g8,
           positioning := g9, granule_production_version := g10,
           release_number := g11, sub_orbit_granule := g12,
           pge_version_number := g13 }
  | _ => none

/-- `GediORNLNameMetadata(*parse_result.groups())`: positional assignment of
the eleven pattern-order groups to the eleven inherited fields. -/
def mkORNLFromGroups : List String → Option GediORNLNameMetadata
  | [g1, g2, g3, g4, g5, g6, g7, g8, g9, g10, g11] =>
    some { product := g1, year := g2, julian_day := g3, hour := g4,
           minute := g5, second := g6, orbit := g7, ground_track := g8,
           positioning := g9, granule_production_version := g10,
           release_number := g11 }
  | _ => none

/-- `parse_lp_granule_filename` (`src/gedidb/granule/granule_name.py`). -/
def parse_lp_granule_filename (f : String) : Option GediLPNameMetadata :=
  (lpGroups f).bind mkLPFromGroups

/-- `parse_ornl_granule_filename` (`src/gedidb/granule/granule_name.py`). -/
def parse_ornl_granule_filename (f : String) : Option GediORNLNameMetadata :=
  (ornlGroups f).bind mkORNLFromGroups

/-- Result of parsing a granule filename against one of the two grammars. -/
inductive ParsedGranuleName
  | lp (m : GediLPNameMetadata)
  | ornl (m : GediORNLNameMetadata)
deriving DecidableEq

/-- Modelled from the spec: `granule_name.parse_granule_filename` is called
by the pipeline but is absent from the sources (only the LP and the ORNL
parser are defined there); per spec §4.1 it parses the filename against one
of the two fixed positional patterns and fails when neither grammar
matches. -/
def parse_granule_filename (f : String) : Except String ParsedGranuleName :=
  match parse_lp_granule_filename f with
  | some m => .ok (.lp m)
  | none =>
    match parse_ornl_granule_filename f with
    | some m => .ok (.ornl m)
    | none => .error ("ValueError: filename does not conform to the GEDI naming pattern")

/-- `_get_granule_key_for_filename` (`src/gedidb/pipeline/data_setup.py`,
lines 37-39): the f-string accesses `parsed.sub_orbit_granule`
unconditionally, a field only the LP metadata record has — on an ORNL
record the attribute access raises `AttributeError`. -/
def _get_granule_key_for_filename (filename : String) : Except String String :=
  match parse_granule_filename filename with
  | .ok (.lp parsed) => .ok (parsed.orbit ++ "_" ++ parsed.sub_orbit_granule)
  | .ok (.ornl _) =>
    .error ("AttributeError: GediORNLNameMetadata has no attribute sub_orbit_granule")
  | .error e => .error e

/-! ## Shapes and the covering-region simplifier

Translated from `src/gedidb/common/shape_parser.py`.  A geometry is a
polygon (exterior ring plus interior rings) or a multipolygon; coordinates
are `ℚ` pairs.  Rings are coordinate lists in shapely's closed convention
(first point repeated at the end); ring orientation is by the shoelace
signed area, as in `shapely.geometry.polygon.orient`. -/

/-- A coordinate pair (longitude, latitude). -/
abbrev GeoPoint : Type := ℚ × ℚ

/-- A polygon: exterior ring and interior (hole) rings. -/
structure GeoPoly where
  exterior : List GeoPoint
  interiors : List (List GeoPoint)
deriving DecidableEq

/-- A (multi)polygon row of a GeoDataFrame. -/
inductive Geometry
  | poly (p : GeoPoly)
  | multi (parts : List GeoPoly)
deriving DecidableEq

/-- A GeoDataFrame/GeoSeries: its geometry rows. -/
abbrev GeoFrame : Type := List Geometry

/-- Coordinates counted by `get_n_coords` for one row: exterior rings only. -/
def nCoordsGeometry : Geometry → ℕ
  | .multi parts => (parts.map (fun part => part.exterior.length)).sum
  | .poly p => p.exterior.length

/-- `get_n_coords` (`src/gedidb/common/shape_parser.py`, lines 35-43). -/
def get_n_coords (shp : GeoFrame) : ℕ :=
  (shp.map nCoordsGeometry).sum

/-- Interior-ring (hole) coordinates of one row — not counted by
`get_n_coords`; named for the comparison the claims call for. -/
def holeCoordsGeometry : Geometry → ℕ
  | .multi parts => (parts.map (fun part => (part.interiors.map List.length).sum)).sum
  | .poly p => (p.interiors.map List.length).sum

/-- All interior-ring coordinates of a frame (comparison definition). -/
def holeCoords (shp : GeoFrame) : ℕ :=
  (shp.map holeCoordsGeometry).sum

/-- The shape's true coordinate total, exterior and interior rings alike
(comparison definition, following the claim's words). -/
def trueCoordTotal (shp : GeoFrame) : ℕ :=
  (shp.map (fun g => nCoordsGeometry g + holeCoordsGeometry g)).sum

/-- Twice the shoelace signed area of a closed ring. -/
def signedArea2 (ring : List GeoPoint) : ℚ :=
  ((ring.zip (ring.drop 1)).map
    (fun s => s.1.1 * s.2.2 - s.2.1 * s.1.2)).sum

/-- Give a ring counter-clockwise (`ccw = true`) or clockwise orientation,
reversing it when needed (`shapely.geometry.polygon.orient`). -/
def orientRing (ccw : Bool) (ring : List GeoPoint) : List GeoPoint :=
  if ccw then (if 0 ≤ signedArea2 ring then ring else ring.reverse)
  else (if signedArea2 ring ≤ 0 then ring else ring.reverse)

/-- `polygon.orient(p)` with the default sign: exterior counter-clockwise,
holes clockwise. -/
def orientPoly (p : GeoPoly) : GeoPoly :=
  { exterior := orientRing true p.exterior,
    interiors := p.interiors.map (orientRing false) }

/-- Orient one geometry row. -/
def orientGeometry : Geometry → Geometry
  | .multi parts => .multi (parts.map orientPoly)
  | .poly p => .poly (orientPoly p)

/-- `orient_shape` (`src/gedidb/common/shape_parser.py`, lines 46-58). -/
def orient_shape (shp : GeoFrame) : GeoFrame :=
  shp.map orientGeometry

/-- Cross product `(a - o) × (b - o)` (segment-intersection orientation
test). -/
def crossAt (o a b : GeoPoint) : ℚ :=
  (a.1 - o.1) * (b.2 - o.2) - (a.2 - o.2) * (b.1 - o.1)

/-- Is `q` on the closed segment `(p, r)` (given the three collinear)? -/
def onSegment (p q r : GeoPoint) : Bool :=
  decide (min p.1 r.1 ≤ q.1 ∧ q.1 ≤ max p.1 r.1
    ∧ min p.2 r.2 ≤ q.2 ∧ q.2 ≤ max p.2 r.2)

/-- Do the closed segments `(p1, p2)` and `(p3, p4)` intersect? -/
def segsIntersect (p1 p2 p3 p4 : GeoPoint) : Bool :=
  let d1 := crossAt p3 p4 p1
  let d2 := crossAt p3 p4 p2
  let d3 := crossAt p1 p2 p3
  let d4 := crossAt p1 p2 p4
  (decide ((0 < d1 ∧ d2 < 0) ∨ (d1 < 0 ∧ 0 < d2))
      && decide ((0 < d3 ∧ d4 < 0) ∨ (d3 < 0 ∧ 0 < d4)))
    || (d1 == 0 && onSegment p3 p1 p4)
    || (d2 == 0 && onSegment p3 p2 p4)
    || (d3 == 0 && onSegment p1 p3 p2)
    || (d4 == 0 && onSegment p1 p4 p2)

/-- Consecutive edges of a closed ring. -/
def ringSegs (ring : List GeoPoint) : List (GeoPoint × GeoPoint) :=
  ring.zip (ring.drop 1)

/-- All edges of a polygon (exterior and holes). -/
def polySegs (p : GeoPoly) : List (GeoPoint × GeoPoint) :=
  ringSegs p.exterior ++ p.interiors.flatMap ringSegs

/-- Even-odd (ray casting) point-in-polygon test over all rings, so a point
inside a hole is outside the polygon. -/
def pointInPoly (p : GeoPoly) (pt : GeoPoint) : Bool :=
  let crossings := (polySegs p).filter (fun s =>
    decide ((s.1.2 ≤ pt.2 ∧ pt.2 < s.2.2) ∨ (s.2.2 ≤ pt.2 ∧ pt.2 < s.1.2))
      && decide (pt.1 < s.1.1 + (s.2.1 - s.1.1) * (pt.2 - s.1.2) / (s.2.2 - s.1.2)))
  ¬(crossings.length % 2 == 0)

/-- Do two polygons (with holes) intersect (shapely `intersects`)? -/
def polysIntersect (a b : GeoPoly) : Bool :=
  (polySegs a).any (fun s => (polySegs b).any (fun s' =>
      segsIntersect s.1 s.2 s'.1 s'.2))
    || a.exterior.any (pointInPoly b)
    || b.exterior.any (pointInPoly a)

/-- Does a polygon intersect a geometry row? -/
def polyIntersectsGeometry (t : GeoPoly) : Geometry → Bool
  | .poly p => polysIntersect t p
  | .multi parts => parts.any (polysIntersect t)

/-- `shapely.geometry.box(minx, miny, maxx, maxy)`: the closed axis-aligned
rectangle, as shapely's closed coordinate ring. -/
def boxRing (minx miny maxx maxy : ℚ) : List GeoPoint :=
  [(maxx, miny), (maxx, maxy), (minx, maxy), (minx, miny), (maxx, miny)]

/-- The 1°×1° tile `box(i, j - 1, i + 1, j)`. -/
def tilePoly (i j : ℤ) : GeoPoly :=
  { exterior := boxRing (i : ℚ) ((j : ℚ) - 1) ((i : ℚ) + 1) (j : ℚ),
    interiors := [] }

/-- The fixed global tile grid, in the loop order of the source:
`for i in range(-180, 180): for j in range(90, -90, -1)`. -/
def allTiles : List GeoPoly :=
  ((List.range 360).map (fun a => (a : ℤ) - 180)).flatMap (fun i =>
    ((List.range 180).map (fun b => 90 - (b : ℤ))).map (fun j => tilePoly i j))

/-- `get_covering_region_for_shape` (`src/gedidb/common/shape_parser.py`,
lines 12-32): the tiles intersecting any row of the frame (the inner
spatial join), unioned into a single geometry.  `union_all` dissolves the
shared tile boundaries; the result is modelled as the undissolved
multipolygon of the selected tiles, which is the same point set. -/
def get_covering_region_for_shape (shp : GeoFrame) : GeoFrame :=
  [Geometry.multi (allTiles.filter (fun t => shp.any (polyIntersectsGeometry t)))]

/-- The error outcomes of `check_and_format_shape`: Python `ValueError`, or
the `DetailError` carrying its `n_coords` payload
(`src/gedidb/common/shape_parser.py`, lines 5-9). -/
inductive ShapeErr
  | valueError (msg : String)
  | detailError (n_coords : ℕ)
deriving DecidableEq

/-- `check_and_format_shape` (`src/gedidb/common/shape_parser.py`,
lines 61-94). -/
def check_and_format_shape (shp : GeoFrame) (simplify : Bool := false)
    (max_coords : ℕ := 4999) : Except ShapeErr GeoFrame :=
  if 4999 < max_coords then
    .error (.valueError "NASA's API can only cope with less than 5000 points")
  else
    let n_coords := get_n_coords shp
    if max_coords < n_coords then
      if !simplify then .error (.detailError n_coords)
      else
        let shp2 := get_covering_region_for_shape shp
        let n2 := get_n_coords shp2
        if max_coords < n2 then
          .error (.valueError "Covering region still exceeds max_coords")
        else .ok (orient_shape shp2)
    else .ok (orient_shape shp)

/-! ## Point-set semantics of the covering region

The containment property of the covering region is about geometries as
regions of the plane.  `coveringRegionPointSet` is the point-set semantics
of `get_covering_region_for_shape`: the input region is an arbitrary set
`S` of coordinate points, a tile is selected exactly when its (closed) box
meets `S` — the `sjoin(..., predicate="intersects")` of the source — and
the result is the union of the selected tiles, which is the point set of
`union_all` of the selected boxes. -/

/-- The closed tile box `box(i, j - 1, i + 1, j)` as a point set. -/
def tileBox (i j : ℤ) : Set GeoPoint :=
  {p | (i : ℚ) ≤ p.1 ∧ p.1 ≤ (i : ℚ) + 1 ∧ (j : ℚ) - 1 ≤ p.2 ∧ p.2 ≤ (j : ℚ)}

/-- The world rectangle spanned by the generated tile grid
(`minx, maxx, miny, maxy = -180, 180, -90, 90`). -/
def worldBox : Set GeoPoint :=
  {p | -180 ≤ p.1 ∧ p.1 ≤ 180 ∧ -90 ≤ p.2 ∧ p.2 ≤ 90}

/-- Point-set semantics of `get_covering_region_for_shape`: the union of
the grid tiles (`i ∈ [-180, 179]`, `j ∈ [-89, 90]`, the ranges of the two
loops) whose closed box meets the input region. -/
def coveringRegionPointSet (S : Set GeoPoint) : Set GeoPoint :=
  {p | ∃ i j : ℤ, -180 ≤ i ∧ i ≤ 179 ∧ -89 ≤ j ∧ j ≤ 90
    ∧ (tileBox i j ∩ S).Nonempty ∧ p ∈ tileBox i j}

/-! ## Concrete instances used by counterexamples and witnesses -/

/-- The columns an L2A table needs for quality filtering. -/
def l2aColumns : List String :=
  ["shot_number", "quality_flag", "sensitivity_a0", "sensitivity_a2",
   "degrade_flag", "rh_100", "surface_flag", "elev_lowestmode", "dem_tandemx"]

/-- One L2A row that passes every predicate of the L2A quality filter. -/
def l2aPassingRow : Row :=
  [("shot_number", 7), ("quality_flag", 1), ("sensitivity_a0", 0.95),
   ("sensitivity_a2", 0.96), ("degrade_flag", 0), ("rh_100", 10),
   ("surface_flag", 1), ("elev_lowestmode", 100), ("dem_tandemx", 50)]

/-- A one-row L2A table with all filter columns. -/
def l2aExample : DFrame :=
  { columns := l2aColumns, rows := [l2aPassingRow] }

/-- A square with five (closed-ring) exterior coordinates and no holes. -/
def shpFive : GeoFrame :=
  [Geometry.poly { exterior := [(0, 0), (4, 0), (4, 4), (0, 4), (0, 0)],
                   interiors := [] }]

/-- A square with one five-coordinate hole. -/
def shpHoled : GeoFrame :=
  [Geometry.poly { exterior := [(0, 0), (10, 0), (10, 10), (0, 10), (0, 0)],
                   interiors := [[(1, 1), (2, 1), (2, 2), (1, 2), (1, 1)]] }]

/-- Per-product example tables for the join: two L2A shots, one of which
appears in all three products. -/
def joinL2A : List Row := [[("shot_number", 1), ("rh_98", 5)], [("shot_number", 2), ("rh_98", 6)]]

/-- L2B example table. -/
def joinL2B : List Row := [[("shot_number", 1), ("pai", 7)]]

/-- L4A example table. -/
def joinL4A : List Row := [[("shot_number", 1), ("agbd", 8)]]

/-- The columns an L4A table needs for quality filtering. -/
def l4aColumns : List String :=
  ["shot_number", "l2_quality_flag", "l4_quality_flag", "algorithm_run_flag",
   "sensitivity_a0", "sensitivity_a2", "degrade_flag", "surface_flag",
   "gridded_pft_class", "gridded_water_persistence", "gridded_urban_proportion"]

/-! # Theorems -/

/-! ## Helper lemmas about rows and frames -/

theorem rowGet_rowSet_self (r : Row) (c : String) (v : ℚ) :
    rowGet (rowSet r c v) c = v := by
  induction r with
  | nil => simp [rowSet, rowGet]
  | cons e es ih =>
    by_cases h : e.1 == c
    · simp [rowSet, h, rowGet]
    · simp only [rowSet, h, if_false, Bool.false_eq_true, ite_false]
      simpa [rowGet, List.find?, h] using ih

theorem rowGet_rowSet_ne (r : Row) (c c' : String) (v : ℚ) (h : c' ≠ c) :
    rowGet (rowSet r c v) c' = rowGet r c' := by
  have hcc : (c == c') = false := by
    simp only [beq_eq_false_iff_ne, ne_eq]
    exact Ne.symm h
  induction r with
  | nil => simp [rowSet, rowGet, List.find?, hcc]
  | cons e es ih =>
    by_cases he : e.1 == c
    · have he1 : e.1 = c := by simpa using he
      have he2 : (e.1 == c') = false := by
        simp only [beq_eq_false_iff_ne, ne_eq, he1]
        exact Ne.symm h
      simp [rowSet, he, rowGet, List.find?, hcc, he2]
    · simp only [rowSet, he, Bool.false_eq_true, ite_false]
      by_cases he2 : e.1 == c'
      · simp [rowGet, List.find?, he2]
      · simpa [rowGet, List.find?, he2] using ih

theorem rowSet_rowSet_self (r : Row) (c : String) (v w : ℚ) :
    rowSet (rowSet r c v) c w = rowSet r c w := by
  induction r with
  | nil => simp [rowSet]
  | cons e es ih =>
    by_cases h : e.1 == c
    · simp [rowSet, h]
    · simp [rowSet, h, ih]

theorem zip_map_self {α β γ : Type} (l : List α) (g : α → β) (h : α → β → γ) :
    ((l.zip (l.map g)).map (fun p => h p.1 p.2)) = l.map (fun x => h x (g x)) := by
  induction l with
  | nil => rfl
  | cons a as ih => simp [ih]

theorem zipWith_map_same {α β γ : Type} (l : List α) (f : α → β) (g : α → β)
    (no : β → β → γ) :
    List.zipWith no (l.map f) (l.map g) = l.map (fun x => no (f x) (g x)) := by
  induction l with
  | nil => rfl
  | cons a as ih => simp [ih]

theorem zip_map_pair {α β : Type} (l : List α) (g : α → β) :
    l.zip (l.map g) = l.map (fun x => (x, g x)) := by
  induction l with
  | nil => rfl
  | cons a as ih => simp [ih]

theorem filterMap_guard_eq_filter {α : Type} (l : List α) (p : α → Bool) :
    l.filterMap (fun x => if p x then some x else none) = l.filter p := by
  induction l with
  | nil => rfl
  | cons a as ih => by_cases h : p a <;> simp [h, ih]

theorem dfSetCol_rows_of_map (t : DFrame) (c : String) (g : Row → ℚ) :
    (dfSetCol t c (t.rows.map g)).rows = t.rows.map (fun r => rowSet r c (g r)) := by
  show ((t.rows.zip (t.rows.map g)).map (fun p => rowSet p.1 c p.2)) = _
  exact zip_map_self t.rows g (fun a b => rowSet a c b)

theorem dfFilterRows_rows_of_map (t : DFrame) (p : Row → Bool) :
    (dfFilterRows t (t.rows.map p)).rows = t.rows.filter p := by
  show ((t.rows.zip (t.rows.map p)).filterMap
    (fun q => if q.2 then some q.1 else none)) = t.rows.filter p
  rw [zip_map_pair t.rows p, List.filterMap_map]
  simpa [Function.comp] using filterMap_guard_eq_filter t.rows p

theorem dfCol_ok (t : DFrame) (c : String) (h : c ∈ t.columns) :
    dfCol t c = .ok (t.rows.map (fun r => rowGet r c)) := by
  simp [dfCol, h]

theorem dfCol_error (t : DFrame) (c : String) (h : ¬(c ∈ t.columns)) :
    dfCol t c = .error ("KeyError: " ++ c) := by
  simp [dfCol, h]

/-! ## Claim C4: the transactional write is atomic -/

/-- Claim C4: for every granule write, either the store is unchanged (a
corrupted artifact, an empty table, or an exception during the transaction,
which rolls the whole transaction back), or the Granule Ledger Entry and all
of the granule's shot rows are committed together — never one without the
other. -/
theorem transactional_write_atomic (db : DBState)
    (granule_key outfile_name : String) (included_files : List String)
    (artifact : Except Unit (List Row)) (failAt : Option ℕ) :
    _write_db db granule_key outfile_name included_files artifact failAt = db
    ∨ ∃ rows, artifact = .ok rows ∧
        _write_db db granule_key outfile_name included_files artifact failAt =
          { gedi_granules := db.gedi_granules ++
              [mkGranuleEntry granule_key included_files outfile_name],
            shots := db.shots ++ rows } := by
  cases artifact with
  | error e => left; rfl
  | ok rows =>
    by_cases hrows : rows.isEmpty
    · left
      simp [_write_db, hrows]
    · cases failAt with
      | none =>
        right
        exact ⟨rows, rfl, by
          simp [_write_db, hrows, runTransaction, insertLedger, insertShots]⟩
      | some k =>
        by_cases hk : k < 2
        · left
          simp [_write_db, hrows, runTransaction, hk]
        · right
          exact ⟨rows, rfl, by
            simp [_write_db, hrows, runTransaction, hk, insertLedger, insertShots]⟩

/-! ## Claim C5: granule key derivation -/

/-- Claim C5 (divergence): the resolver does not derive the documented
Granule Key.  For an LP-style filename whose sub-orbit segment is `04` and
whose granule production version is `01`, the dataclass misalignment makes
the key `O02950_01` (orbit and production version), not the documented
`O02950_04` (orbit and sub-orbit segment); and for an ORNL-style filename
(no sub-orbit field) the resolver raises `AttributeError` instead of
returning the orbit number alone. -/
theorem granule_key_resolver_divergence :
    _get_granule_key_for_filename
        "GEDI02_B_2019171194823_O02950_04_T00250_02_003_01_V002.h5"
      = .ok ("O02950_01")
    ∧ _get_granule_key_for_filename
        "GEDI02_B_2019171194823_O02950_04_T00250_02_003_01_V002.h5"
      ≠ .ok ("O02950_04")
    ∧ _get_granule_key_for_filename
        "GEDI04_A_2019110062417_O01994_T02062_02_002_01.h5"
      = .error ("AttributeError: GediORNLNameMetadata has no attribute sub_orbit_granule")
    ∧ (parse_lp_granule_filename
        "GEDI02_B_2019171194823_O02950_04_T00250_02_003_01_V002.h5").map
          (fun m => m.sub_orbit_granule) = some ("01") := by decide

/-! ## Claim C9: the per-granule parse loop -/

/-- Claim C9: a beam whose processing raised is skipped and the remaining
beams are still processed (the parse returns the concatenation of the
successful beams' tables as soon as one beam succeeded); when every beam
raised, the parse raises (the `pd.concat` of an empty list) instead of
returning an empty table. -/
theorem parse_skips_failed_beams_or_raises :
    (∀ beams : List (Except Unit (List Row)),
      (∀ b ∈ beams, ∃ e, b = Except.error e) →
      _parse beams = .error ("ValueError: No objects to concatenate"))
    ∧ (∀ (beams : List (Except Unit (List Row))) (t : List Row),
      Except.ok t ∈ beams →
      _parse beams = .ok ((beams.filterMap (fun r =>
        match r with
        | .ok tb => some tb
        | .error _ => none)).flatten)) := by
  constructor
  · intro beams h
    have hnil : beams.filterMap (fun r =>
        match r with
        | .ok tb => some tb
        | .error _ => none) = [] := by
      rw [List.filterMap_eq_nil_iff]
      intro a ha
      obtain ⟨e, rfl⟩ := h a ha
      rfl
    simp [_parse, hnil]
  · intro beams t ht
    have hmem : t ∈ beams.filterMap (fun r =>
        match r with
        | .ok tb => some tb
        | .error _ => none) :=
      List.mem_filterMap.mpr ⟨Except.ok t, ht, rfl⟩
    have hne : (beams.filterMap (fun r =>
        match r with
        | .ok tb => some tb
        | .error _ => none)).isEmpty = false := by
      rcases hl : beams.filterMap (fun r =>
        match r with
        | .ok tb => some tb
        | .error _ => none) with _ | ⟨x, xs⟩
      · rw [hl] at hmem
        cases hmem
      · rw [hl]
        rfl
    simp [_parse, hne]

/-- Witness for C9: one failing beam among successes is skipped; a granule
whose beams all fail raises. -/
theorem parse_skips_failed_beams_or_raises_witness :
    _parse [Except.error (), Except.ok ([[("shot_number", (1 : ℚ))]]), Except.error ()]
      = .ok ([[("shot_number", (1 : ℚ))]])
    ∧ _parse ([Except.error (), Except.error ()] : List (Except Unit (List Row)))
      = .error ("ValueError: No objects to concatenate") := by
  constructor
  · have h := parse_skips_failed_beams_or_raises.2
      [Except.error (), Except.ok ([[("shot_number", (1 : ℚ))]]), Except.error ()]
      ([[("shot_number", (1 : ℚ))]]) (by simp)
    exact h.trans (by decide)
  · exact parse_skips_failed_beams_or_raises.1 _ (by
      intro b hb
      simp only [List.mem_cons, List.not_mem_nil, or_false] at hb
      rcases hb with rfl | rfl
      · exact ⟨(), rfl⟩
      · exact ⟨(), rfl⟩)

/-! ## Claim C10: the vertex counter ignores interior rings -/

/-- Claim C10: `get_n_coords` counts exterior-ring coordinates only — the
count plus the hole coordinates equals the shape's true coordinate total,
so on any shape with a nonempty interior ring the limit check of
`check_and_format_shape` under-counts the true total. -/
theorem get_n_coords_ignores_holes :
    (∀ shp : GeoFrame, get_n_coords shp + holeCoords shp = trueCoordTotal shp)
    ∧ (∀ shp : GeoFrame, 0 < holeCoords shp →
        get_n_coords shp < trueCoordTotal shp) := by
  have key : ∀ shp : GeoFrame,
      get_n_coords shp + holeCoords shp = trueCoordTotal shp := by
    intro shp
    unfold get_n_coords holeCoords trueCoordTotal
    exact (List.sum_map_add).symm
  exact ⟨key, fun shp h => by have := key shp; omega⟩

/-- Witness for C10: a square with one hole — the counter misses the five
hole coordinates. -/
theorem get_n_coords_ignores_holes_witness :
    0 < holeCoords shpHoled
    ∧ get_n_coords shpHoled < trueCoordTotal shpHoled :=
  ⟨by decide, get_n_coords_ignores_holes.2 shpHoled (by decide)⟩

/-! ## Claim C6: the too-many-vertices condition -/

/-- Counterexample for C6: with `max_coords = 3` and a five-coordinate
shape, the `DetailError` carries `5` — the total vertex count — and not the
excess count `5 - 3 = 2` the claim states. -/
theorem detail_error_counterexample :
    check_and_format_shape shpFive false 3 ≠ .error (.detailError 2)
    ∧ check_and_format_shape shpFive false 3 = .error (.detailError 5) := by
  decide

/-- Claim C6 (amended): with `simplify = False` and `max_coords ≤ 4999`, a
shape whose vertex count exceeds `max_coords` raises `DetailError` carrying
the shape's total vertex count (not the excess beyond the limit); a shape
within the limit raises no `DetailError` — the call returns the oriented
shape. -/
theorem detail_error_carries_total_count (shp : GeoFrame) (max_coords : ℕ)
    (hmax : max_coords ≤ 4999) :
    (max_coords < get_n_coords shp →
      check_and_format_shape shp false max_coords
        = .error (.detailError (get_n_coords shp)))
    ∧ (get_n_coords shp ≤ max_coords →
      check_and_format_shape shp false max_coords
        = .ok (orient_shape shp)) := by
  have h4999 : ¬(4999 < max_coords) := Nat.not_lt.mpr hmax
  constructor
  · intro h
    simp [check_and_format_shape, h4999, h]
  · intro h
    simp [check_and_format_shape, h4999, Nat.not_lt.mpr h]

/-- Witness for C6 (amended): the five-coordinate square raises
`DetailError 5` at `max_coords = 3` and passes at `max_coords = 10`. -/
theorem detail_error_carries_total_count_witness :
    check_and_format_shape shpFive false 3 = .error (.detailError 5)
    ∧ check_and_format_shape shpFive false 10 = .ok (orient_shape shpFive) := by
  constructor
  · have h := (detail_error_carries_total_count shpFive 3 (by norm_num)).1 (by decide)
    have h5 : get_n_coords shpFive = 5 := by decide
    rw [h5] at h
    exact h
  · exact (detail_error_carries_total_count shpFive 10 (by norm_num)).2 (by decide)

/-! ## Properties of the Python string order and of `pySorted` -/

theorem strLtChars_asymm : ∀ (a b : List Char),
    strLtChars a b = true → strLtChars b a = false := by
  intro a
  induction a with
  | nil =>
    intro b h
    cases b with
    | nil => simp [strLtChars] at h
    | cons y ys => simp [strLtChars]
  | cons x xs ih =>
    intro b h
    cases b with
    | nil => simp [strLtChars] at h
    | cons y ys =>
      simp only [strLtChars] at h ⊢
      by_cases hxy : x < y
      · have hyx : ¬ y < x := lt_asymm hxy
        simp [hxy, hyx]
      · by_cases hyx : y < x
        · simp [hxy, hyx] at h
        · simp only [hxy, hyx, if_false] at h ⊢
          simpa using ih ys h

theorem strLtChars_conn : ∀ (a b : List Char),
    strLtChars a b = false → strLtChars b a = false → a = b := by
  intro a
  induction a with
  | nil =>
    intro b h1 _
    cases b with
    | nil => rfl
    | cons y ys => simp [strLtChars] at h1
  | cons x xs ih =>
    intro b h1 h2
    cases b with
    | nil => simp [strLtChars] at h2
    | cons y ys =>
      simp only [strLtChars] at h1 h2
      by_cases hxy : x < y
      · simp [hxy] at h1
      · by_cases hyx : y < x
        · simp [hyx, hxy] at h2
        · have hx : x = y := le_antisymm (not_lt.mp hyx) (not_lt.mp hxy)
          simp only [hxy, hyx, if_false] at h1 h2
          rw [hx, ih ys h1 h2]

theorem strLtChars_trans : ∀ (a b c : List Char),
    strLtChars a b = true → strLtChars b c = true → strLtChars a c = true := by
  intro a
  induction a with
  | nil =>
    intro b c h1 h2
    cases b with
    | nil => simp [strLtChars] at h1
    | cons y ys =>
      cases c with
      | nil => simp [strLtChars] at h2
      | cons z zs => simp [strLtChars]
  | cons x xs ih =>
    intro b c h1 h2
    cases b with
    | nil => simp [strLtChars] at h1
    | cons y ys =>
      cases c with
      | nil => simp [strLtChars] at h2
      | cons z zs =>
        simp only [strLtChars] at h1 h2 ⊢
        by_cases hxy : x < y
        · by_cases hyz : y < z
          · simp [lt_trans hxy hyz]
          · by_cases hzy : z < y
            · simp [hyz, hzy] at h2
            · have hyzeq : y = z := le_antisymm (not_lt.mp hzy) (not_lt.mp hyz)
              have hxz : x < z := hyzeq ▸ hxy
              simp [hxz]
        · by_cases hyx : y < x
          · simp [hxy, hyx] at h1
          · have hxyeq : x = y := le_antisymm (not_lt.mp hyx) (not_lt.mp hxy)
            by_cases hyz : y < z
            · have hxz : x < z := hxyeq ▸ hyz
              simp [hxz]
            · by_cases hzy : z < y
              · simp [hyz, hzy] at h2
              · have hyzeq : y = z := le_antisymm (not_lt.mp hzy) (not_lt.mp hyz)
                have hxz : ¬ x < z := by
                  rw [hxyeq, hyzeq]
                  exact lt_irrefl z
                have hzx : ¬ z < x := by
                  rw [hxyeq, hyzeq]
                  exact lt_irrefl z
                simp only [hxy, hyx, if_false] at h1
                simp only [hyz, hzy, if_false] at h2
                simp only [hxz, hzx, if_false]
                exact ih ys zs h1 h2

theorem pyStrLe_total (a b : String) :
    pyStrLe a b = true ∨ pyStrLe b a = true := by
  cases hb : strLtChars b.data a.data with
  | false => left; simp [pyStrLe, hb]
  | true => right; simp [pyStrLe, strLtChars_asymm _ _ hb]

theorem pyStrLe_antisymm (a b : String) (h1 : pyStrLe a b = true)
    (h2 : pyStrLe b a = true) : a = b := by
  simp only [pyStrLe, Bool.not_eq_true'] at h1 h2
  exact String.ext (strLtChars_conn _ _ h2 h1)

theorem pyStrLe_trans (a b c : String) (h1 : pyStrLe a b = true)
    (h2 : pyStrLe b c = true) : pyStrLe a c = true := by
  simp only [pyStrLe, Bool.not_eq_true'] at h1 h2 ⊢
  cases hca : strLtChars c.data a.data with
  | false => rfl
  | true =>
    exfalso
    cases hbc : strLtChars b.data c.data with
    | true =>
      have hba := strLtChars_trans _ _ _ hbc hca
      rw [h1] at hba
      cases hba
    | false =>
      have hbceq : b.data = c.data := strLtChars_conn _ _ hbc h2
      rw [← hbceq] at hca
      rw [h1] at hca
      cases hca

theorem insertSorted_perm (a : String) (l : List String) :
    (insertSorted a l).Perm (a :: l) := by
  induction l with
  | nil => exact List.Perm.refl _
  | cons b bs ih =>
    by_cases h : pyStrLe a b
    · simp [insertSorted, h]
    · simp only [insertSorted, h, Bool.false_eq_true, if_false]
      exact (ih.cons b).trans (List.Perm.swap a b bs)

theorem pySorted_perm (l : List String) : (pySorted l).Perm l := by
  induction l with
  | nil => exact List.Perm.refl _
  | cons a as ih => exact (insertSorted_perm a (pySorted as)).trans (ih.cons a)

theorem insertSorted_sorted (a : String) (l : List String)
    (hl : l.Sorted (fun x y => pyStrLe x y = true)) :
    (insertSorted a l).Sorted (fun x y => pyStrLe x y = true) := by
  induction l with
  | nil => simp [insertSorted]
  | cons b bs ih =>
    rcases List.sorted_cons.mp hl with ⟨hb, hbs⟩
    by_cases h : pyStrLe a b
    · simp only [insertSorted, h, if_true]
      refine List.sorted_cons.mpr ⟨?_, hl⟩
      intro c hc
      rcases List.mem_cons.mp hc with rfl | hc
      · exact h
      · exact pyStrLe_trans a b c h (hb c hc)
    · simp only [insertSorted, h, Bool.false_eq_true, if_false]
      have hba : pyStrLe b a = true := by
        rcases pyStrLe_total a b with hab | hba
        · exact absurd hab h
        · exact hba
      refine List.sorted_cons.mpr ⟨?_, ih hbs⟩
      intro c hc
      have : c ∈ a :: bs := (insertSorted_perm a bs).subset hc
      rcases List.mem_cons.mp this with rfl | hc2
      · exact hba
      · exact hb c hc2

theorem pySorted_sorted (l : List String) :
    (pySorted l).Sorted (fun x y => pyStrLe x y = true) := by
  induction l with
  | nil => simp [pySorted]
  | cons a as ih => exact insertSorted_sorted a (pySorted as) ih

theorem pySorted_eq_of_perm (l1 l2 : List String) (h : l1.Perm l2) :
    pySorted l1 = pySorted l2 := by
  letI : IsAntisymm String (fun x y => pyStrLe x y = true) :=
    ⟨fun a b h1 h2 => pyStrLe_antisymm a b h1 h2⟩
  exact List.eq_of_perm_of_sorted
    ((pySorted_perm l1).trans (h.trans (pySorted_perm l2).symm))
    (pySorted_sorted l1) (pySorted_sorted l2)

/-! ## Claim C2: the content hash is order-independent -/

/-- Claim C2: two permutations of the same contributing filenames give the
same content hash (`hash_string_list` of the sorted list) and the same
content-hash-named artifact path — file-discovery order never changes the
cache key or artifact name. -/
theorem content_hash_order_independent
    (granules1 granules2 : List (GediProduct × String)) (granule_key : String)
    (h : (granules1.map (fun f => f.2)).Perm (granules2.map (fun f => f.2))) :
    hash_string_list (includedFiles granules1)
      = hash_string_list (includedFiles granules2)
    ∧ outfileName granule_key (includedFiles granules1)
      = outfileName granule_key (includedFiles granules2) := by
  have he : includedFiles granules1 = includedFiles granules2 :=
    pySorted_eq_of_perm _ _ h
  rw [includedFiles] at he
  rw [includedFiles, includedFiles, he]
  exact ⟨rfl, rfl⟩

/-- Witness for C2: the same three files discovered in two different
orders. -/
theorem content_hash_order_independent_witness :
    hash_string_list (includedFiles
        [(GediProduct.L4A, "c.h5"), (GediProduct.L2A, "a.h5"),
         (GediProduct.L2B, "b.h5")])
      = hash_string_list (includedFiles
        [(GediProduct.L2A, "a.h5"), (GediProduct.L2B, "b.h5"),
         (GediProduct.L4A, "c.h5")])
    ∧ outfileName "O2950_01" (includedFiles
        [(GediProduct.L4A, "c.h5"), (GediProduct.L2A, "a.h5"),
         (GediProduct.L2B, "b.h5")])
      = outfileName "O2950_01" (includedFiles
        [(GediProduct.L2A, "a.h5"), (GediProduct.L2B, "b.h5"),
         (GediProduct.L4A, "c.h5")]) :=
  content_hash_order_independent _ _ "O2950_01" (by decide)

/-! ## Claim C8: ledger file columns are positional -/

theorem strLtChars_append_lt (p : List Char) (a b : Char) (x y : List Char)
    (h : a < b) :
    strLtChars (p ++ a :: x) (p ++ b :: y) = true := by
  induction p with
  | nil => simp [strLtChars, h]
  | cons c cs ih => simp [strLtChars, lt_irrefl c, ih]

theorem pyStrLe_of_strLt (a b : String) (h : strLtChars a.data b.data = true) :
    pyStrLe a b = true := by
  simp only [pyStrLe, Bool.not_eq_true']
  exact strLtChars_asymm _ _ h

/-- Claim C8: for a granule whose three contributing filenames start with
the product codes `GEDI02_A`, `GEDI02_B` and `GEDI04_A`, the ledger columns
`l2a_file`, `l2b_file` and `l4a_file` — filled positionally from indices
0, 1, 2 of the alphabetically sorted filename list — each receive the
filename of their own product, because those prefixes are lexicographically
ordered. -/
theorem ledger_columns_positional
    (granules : List (GediProduct × String)) (fa fb fc : String)
    (granule_key outfile_name : String) (ra rb rc : List Char)
    (hfa : fa.data = ['G', 'E', 'D', 'I', '0', '2', '_', 'A'] ++ ra)
    (hfb : fb.data = ['G', 'E', 'D', 'I', '0', '2', '_', 'B'] ++ rb)
    (hfc : fc.data = ['G', 'E', 'D', 'I', '0', '4', '_', 'A'] ++ rc)
    (hperm : (granules.map (fun f => f.2)).Perm [fa, fb, fc]) :
    (mkGranuleEntry granule_key (includedFiles granules) outfile_name).l2a_file = fa
    ∧ (mkGranuleEntry granule_key (includedFiles granules) outfile_name).l2b_file = fb
    ∧ (mkGranuleEntry granule_key (includedFiles granules) outfile_name).l4a_file = fc := by
  have hab : pyStrLe fa fb = true := by
    apply pyStrLe_of_strLt
    rw [hfa, hfb]
    exact strLtChars_append_lt ['G', 'E', 'D', 'I', '0', '2', '_'] 'A' 'B' ra rb
      (by decide)
  have hbc : pyStrLe fb fc = true := by
    apply pyStrLe_of_strLt
    rw [hfb, hfc]
    exact strLtChars_append_lt ['G', 'E', 'D', 'I', '0'] '2' '4'
      ('_' :: 'B' :: rb) ('_' :: 'A' :: rc) (by decide)
  have hac : pyStrLe fa fc = true := by
    apply pyStrLe_of_strLt
    rw [hfa, hfc]
    exact strLtChars_append_lt ['G', 'E', 'D', 'I', '0'] '2' '4'
      ('_' :: 'A' :: ra) ('_' :: 'A' :: rc) (by decide)
  have hsorted : ([fa, fb, fc] : List String).Sorted (fun x y => pyStrLe x y = true) := by
    rw [List.sorted_cons]
    refine ⟨?_, ?_⟩
    · intro c hc
      rcases List.mem_cons.mp hc with rfl | hc2
      · exact hab
      · rcases List.mem_cons.mp hc2 with rfl | hc3
        · exact hac
        · cases hc3
    · rw [List.sorted_cons]
      refine ⟨?_, ?_⟩
      · intro c hc
        rcases List.mem_cons.mp hc with rfl | hc2
        · exact hbc
        · cases hc2
      · simp
  have hinc : includedFiles granules = [fa, fb, fc] := by
    letI : IsAntisymm String (fun x y => pyStrLe x y = true) :=
      ⟨fun a b h1 h2 => pyStrLe_antisymm a b h1 h2⟩
    exact List.eq_of_perm_of_sorted ((pySorted_perm _).trans hperm)
      (pySorted_sorted _) hsorted
  refine ⟨?_, ?_, ?_⟩ <;> simp [mkGranuleEntry, hinc]

/-- Witness for C8: three concrete product filenames discovered out of
order land in their own ledger columns. -/
theorem ledger_columns_positional_witness :
    (mkGranuleEntry "O2812_01" (includedFiles
        [(GediProduct.L4A, "GEDI04_A1.h5"), (GediProduct.L2B, "GEDI02_B1.h5"),
         (GediProduct.L2A, "GEDI02_A1.h5")]) "out.parquet").l2a_file
      = "GEDI02_A1.h5"
    ∧ (mkGranuleEntry "O2812_01" (includedFiles
        [(GediProduct.L4A, "GEDI04_A1.h5"), (GediProduct.L2B, "GEDI02_B1.h5"),
         (GediProduct.L2A, "GEDI02_A1.h5")]) "out.parquet").l2b_file
      = "GEDI02_B1.h5"
    ∧ (mkGranuleEntry "O2812_01" (includedFiles
        [(GediProduct.L4A, "GEDI04_A1.h5"), (GediProduct.L2B, "GEDI02_B1.h5"),
         (GediProduct.L2A, "GEDI02_A1.h5")]) "out.parquet").l4a_file
      = "GEDI04_A1.h5" :=
  ledger_columns_positional _ "GEDI02_A1.h5" "GEDI02_B1.h5" "GEDI04_A1.h5"
    "O2812_01" "out.parquet" ['1', '.', 'h', '5'] ['1', '.', 'h', '5']
    ['1', '.', 'h', '5'] (by decide) (by decide) (by decide) (by decide)

/-! ## Claim C3: the join is a strict intersection on the shot identifier -/

theorem rowShot_mergeRow (a b : Row) :
    rowShot (a ++ b.filter (fun e => !(e.1 == "shot_number"))) = rowShot a := by
  unfold rowShot rowGet
  rw [List.find?_append]
  cases ha : a.find? (fun e => e.1 == "shot_number") with
  | some e => rfl
  | none =>
    have hbf : (b.filter (fun e => !(e.1 == "shot_number"))).find?
        (fun e => e.1 == "shot_number") = none := by
      rw [List.find?_eq_none]
      intro x hx
      have := List.of_mem_filter hx
      simpa using this
    rw [hbf]
    rfl

theorem mem_joinInner (A B : List Row) (r : Row) (h : r ∈ joinInner A B) :
    ∃ a ∈ A, ∃ b ∈ B, rowShot b = rowShot a ∧
      r = a ++ b.filter (fun e => !(e.1 == "shot_number")) := by
  unfold joinInner at h
  rcases List.mem_flatMap.mp h with ⟨a, haA, hr⟩
  rcases List.mem_map.mp hr with ⟨b, hbf, rfl⟩
  rcases List.mem_filter.mp hbf with ⟨hbB, hkey⟩
  exact ⟨a, haA, b, hbB, by simpa using hkey, rfl⟩

theorem rowShot_mem_joinInner (A B : List Row) (r : Row) (h : r ∈ joinInner A B) :
    rowShot r ∈ A.map rowShot ∧ rowShot r ∈ B.map rowShot := by
  rcases mem_joinInner A B r h with ⟨a, haA, b, hbB, hkey, rfl⟩
  rw [rowShot_mergeRow]
  exact ⟨List.mem_map.mpr ⟨a, haA, rfl⟩, List.mem_map.mpr ⟨b, hbB, hkey⟩⟩

theorem filter_key_len_le_one (B : List Row) (hB : (B.map rowShot).Nodup) (q : ℚ) :
    (B.filter (fun b => decide (rowShot b = q))).length ≤ 1 := by
  induction B with
  | nil => simp
  | cons b bs ih =>
    rw [List.map_cons, List.nodup_cons] at hB
    obtain ⟨hnotin, hnd⟩ := hB
    by_cases hb : rowShot b = q
    · have hnil : bs.filter (fun x => decide (rowShot x = q)) = [] := by
        rw [List.filter_eq_nil_iff]
        intro x hx
        simp only [decide_eq_true_eq]
        intro hxq
        exact hnotin (List.mem_map.mpr ⟨x, hx, by rw [hxq, hb]⟩)
      simp [List.filter_cons, hb, hnil]
    · simp only [List.filter_cons, hb, decide_eq_true_eq, if_false]
      simpa [hb] using ih hnd

theorem joinInner_keys_sublist (A B : List Row)
    (hB : (B.map rowShot).Nodup) :
    ((joinInner A B).map rowShot).Sublist (A.map rowShot) := by
  induction A with
  | nil => simp [joinInner]
  | cons a as ih =>
    have hsplit : joinInner (a :: as) B =
        ((B.filter (fun b => decide (rowShot b = rowShot a))).map
          (fun b => a ++ b.filter (fun e => !(e.1 == "shot_number"))))
          ++ joinInner as B := by
      simp [joinInner]
    rw [hsplit, List.map_append, List.map_cons]
    rcases hm : B.filter (fun b => decide (rowShot b = rowShot a)) with _ | ⟨b0, rest⟩
    · simpa using ih.cons (rowShot a)
    · have hlen := filter_key_len_le_one B hB (rowShot a)
      rw [hm] at hlen
      have hrest : rest = [] := by
        simp only [List.length_cons] at hlen
        exact List.length_eq_zero.mp (by omega)
      subst hrest
      simp only [List.map_cons, List.map_nil, List.nil_append, List.cons_append,
        rowShot_mergeRow]
      exact ih.cons₂ (rowShot a)

theorem joinInner_keys_subset_right (A B : List Row) :
    ∀ x ∈ (joinInner A B).map rowShot, x ∈ B.map rowShot := by
  intro x hx
  rcases List.mem_map.mp hx with ⟨r, hr, rfl⟩
  exact (rowShot_mem_joinInner A B r hr).2

theorem nodup_subset_length {α : Type} [DecidableEq α] (l l2 : List α)
    (h : l.Nodup) (hs : ∀ x ∈ l, x ∈ l2) : l.length ≤ l2.length := by
  calc l.length = l.toFinset.card := (List.toFinset_card_of_nodup h).symm
    _ ≤ l2.toFinset.card := Finset.card_le_card (fun x hx => by
        rw [List.mem_toFinset] at hx ⊢
        exact hs x hx)
    _ ≤ l2.length := List.toFinset_card_le l2

/-- Claim C3: every row of the three-way joined table has a `shot_number`
present in all three input tables; and, the inputs being per-product tables
(shot numbers unique within one product file, the spec's data-model
invariant), the joined row count is at most the minimum of the three input
row counts. -/
theorem cross_product_join_strict_intersection (l2a l2b l4a : List Row) :
    (∀ r ∈ joinThree l2a l2b l4a,
      rowShot r ∈ l2a.map rowShot ∧ rowShot r ∈ l2b.map rowShot
        ∧ rowShot r ∈ l4a.map rowShot)
    ∧ ((l2a.map rowShot).Nodup → (l2b.map rowShot).Nodup →
        (l4a.map rowShot).Nodup →
        (joinThree l2a l2b l4a).length
          ≤ min l2a.length (min l2b.length l4a.length)) := by
  constructor
  · intro r hr
    unfold joinThree at hr
    obtain ⟨hJ2, hC⟩ := rowShot_mem_joinInner _ _ r hr
    rcases List.mem_map.mp hJ2 with ⟨r2, hr2, hkey⟩
    have h2 := rowShot_mem_joinInner _ _ r2 hr2
    refine ⟨?_, ?_, hC⟩
    · rw [← hkey]
      exact h2.1
    · rw [← hkey]
      exact h2.2
  · intro hA hB hC
    have hJ2sub : (((joinInner l2a l2b).map rowShot)).Sublist (l2a.map rowShot) :=
      joinInner_keys_sublist _ _ hB
    have hJ2nodup : ((joinInner l2a l2b).map rowShot).Nodup := hJ2sub.nodup hA
    have hJ3sub : (((joinInner (joinInner l2a l2b) l4a).map rowShot)).Sublist
        ((joinInner l2a l2b).map rowShot) := joinInner_keys_sublist _ _ hC
    have hJ3nodup := hJ3sub.nodup hJ2nodup
    have hlen_a : (joinInner (joinInner l2a l2b) l4a).length ≤ l2a.length := by
      have := (hJ3sub.trans hJ2sub).length_le
      simpa using this
    have hlen_b : (joinInner (joinInner l2a l2b) l4a).length ≤ l2b.length := by
      have hsub : ∀ x ∈ (joinInner (joinInner l2a l2b) l4a).map rowShot,
          x ∈ l2b.map rowShot := by
        intro x hx
        rcases List.mem_map.mp hx with ⟨r, hr, rfl⟩
        have h1 := (rowShot_mem_joinInner _ _ r hr).1
        rcases List.mem_map.mp h1 with ⟨r2, hr2, hkey⟩
        rw [← hkey]
        exact (rowShot_mem_joinInner _ _ r2 hr2).2
      have := nodup_subset_length _ _ hJ3nodup hsub
      simpa using this
    have hlen_c : (joinInner (joinInner l2a l2b) l4a).length ≤ l4a.length := by
      have := nodup_subset_length _ _ hJ3nodup (joinInner_keys_subset_right _ _)
      simpa using this
    exact le_min hlen_a (le_min hlen_b hlen_c)

/-- Witness for C3: a joined shot present in all three example tables, and
the joined count within the minimum input count. -/
theorem cross_product_join_strict_intersection_witness :
    (rowShot [("shot_number", (1 : ℚ)), ("rh_98", 5), ("pai", 7), ("agbd", 8)]
        ∈ joinL2A.map rowShot
      ∧ rowShot [("shot_number", (1 : ℚ)), ("rh_98", 5), ("pai", 7), ("agbd", 8)]
        ∈ joinL2B.map rowShot
      ∧ rowShot [("shot_number", (1 : ℚ)), ("rh_98", 5), ("pai", 7), ("agbd", 8)]
        ∈ joinL4A.map rowShot)
    ∧ (joinThree joinL2A joinL2B joinL4A).length
        ≤ min joinL2A.length (min joinL2B.length joinL4A.length) :=
  ⟨(cross_product_join_strict_intersection joinL2A joinL2B joinL4A).1 _ (by decide),
   (cross_product_join_strict_intersection joinL2A joinL2B joinL4A).2
     (by decide) (by decide) (by decide)⟩

/-! ## Claim C7: covering region containment and the vertex bound -/

theorem orientRing_length (ccw : Bool) (ring : List GeoPoint) :
    (orientRing ccw ring).length = ring.length := by
  unfold orientRing
  split_ifs <;> simp

theorem orientPoly_exterior_length (p : GeoPoly) :
    (orientPoly p).exterior.length = p.exterior.length := by
  simp [orientPoly, orientRing_length]

theorem nCoords_orientGeometry (g : Geometry) :
    nCoordsGeometry (orientGeometry g) = nCoordsGeometry g := by
  cases g with
  | poly p => simp [orientGeometry, nCoordsGeometry, orientPoly_exterior_length]
  | multi parts =>
    simp only [orientGeometry, nCoordsGeometry, List.map_map]
    induction parts with
    | nil => rfl
    | cons q qs ih =>
      simp only [List.map_cons, List.sum_cons, ih, Function.comp,
        orientPoly_exterior_length]

theorem get_n_coords_orient (shp : GeoFrame) :
    get_n_coords (orient_shape shp) = get_n_coords shp := by
  unfold get_n_coords orient_shape
  rw [List.map_map]
  induction shp with
  | nil => rfl
  | cons g gs ih =>
    simp only [List.map_cons, List.sum_cons, ih, Function.comp,
      nCoords_orientGeometry]

/-- Claim C7: every region within the world rectangle is fully contained in
its covering region (the union of the 1°×1° grid tiles that meet it), and
every frame returned normally by `check_and_format_shape` has vertex count
at most `max_coords`. -/
theorem covering_region_contains_and_bounded :
    (∀ S : Set GeoPoint, S ⊆ worldBox → S ⊆ coveringRegionPointSet S)
    ∧ (∀ (shp : GeoFrame) (simplify : Bool) (max_coords : ℕ) (res : GeoFrame),
        check_and_format_shape shp simplify max_coords = .ok res →
        get_n_coords res ≤ max_coords) := by
  constructor
  · intro S hS p hp
    obtain ⟨hx1, hx2, hy1, hy2⟩ := hS hp
    have hpt : p ∈ tileBox (min ⌊p.1⌋ 179) (max ⌈p.2⌉ (-89)) := by
      simp only [tileBox, Set.mem_setOf_eq]
      refine ⟨?_, ?_, ?_, ?_⟩
      · have hmin : (min ⌊p.1⌋ 179 : ℤ) ≤ ⌊p.1⌋ := min_le_left _ _
        have hc : ((min ⌊p.1⌋ 179 : ℤ) : ℚ) ≤ ((⌊p.1⌋ : ℤ) : ℚ) := by
          exact_mod_cast hmin
        exact hc.trans (Int.floor_le p.1)
      · rcases le_or_lt ⌊p.1⌋ 179 with hle | hgt
        · rw [min_eq_left hle]
          exact (Int.lt_floor_add_one p.1).le
        · rw [min_eq_right hgt.le]
          push_cast
          linarith
      · rcases le_or_lt ⌈p.2⌉ (-89) with hle | hgt
        · rw [max_eq_right hle]
          push_cast
          linarith
        · rw [max_eq_left hgt.le]
          have := Int.ceil_lt_add_one p.2
          push_cast at this ⊢
          linarith
      · have h1 : p.2 ≤ (⌈p.2⌉ : ℚ) := Int.le_ceil p.2
        have h2 : ((⌈p.2⌉ : ℤ) : ℚ) ≤ ((max ⌈p.2⌉ (-89) : ℤ) : ℚ) := by
          exact_mod_cast le_max_left _ _
        linarith
    simp only [coveringRegionPointSet, Set.mem_setOf_eq]
    refine ⟨min ⌊p.1⌋ 179, max ⌈p.2⌉ (-89), ?_, min_le_right _ _, le_max_right _ _,
      ?_, ⟨p, hpt, hp⟩, hpt⟩
    · refine le_min ?_ (by norm_num)
      rw [Int.le_floor]
      exact_mod_cast hx1
    · refine max_le ?_ (by norm_num)
      rw [Int.ceil_le]
      exact_mod_cast hy2
  · intro shp simplify max_coords res h
    unfold check_and_format_shape at h
    by_cases h1 : 4999 < max_coords
    · simp [h1] at h
    · simp only [h1, if_false] at h
      by_cases h2 : max_coords < get_n_coords shp
      · simp only [h2, if_true] at h
        cases simplify with
        | false => simp at h
        | true =>
          simp only [Bool.not_true, Bool.false_eq_true, if_false] at h
          by_cases h3 : max_coords < get_n_coords (get_covering_region_for_shape shp)
          · simp [h3] at h
          · simp only [h3, if_false, Except.ok.injEq] at h
            subst h
            rw [get_n_coords_orient]
            omega
      · simp only [h2, if_false, Except.ok.injEq] at h
        subst h
        rw [get_n_coords_orient]
        omega

/-- Witness for C7: a singleton region inside the world rectangle lies in
its covering region, and a frame accepted by `check_and_format_shape` is
within the bound. -/
theorem covering_region_contains_and_bounded_witness :
    ((1 / 2 : ℚ), (1 / 2 : ℚ)) ∈ coveringRegionPointSet {((1 / 2 : ℚ), (1 / 2 : ℚ))}
    ∧ get_n_coords (orient_shape shpFive) ≤ 10 := by
  constructor
  · refine (covering_region_contains_and_bounded.1
      {((1 / 2 : ℚ), (1 / 2 : ℚ))} ?_) rfl
    intro q hq
    rw [Set.mem_singleton_iff] at hq
    subst hq
    exact ⟨by norm_num, by norm_num, by norm_num, by norm_num⟩
  · exact covering_region_contains_and_bounded.2 shpFive false 10
      (orient_shape shpFive) (by rfl)

/-! ## Claim C1: quality filtering and re-application -/

theorem exceptBind_ok {e a b : Type} (x : a) (k : a → Except e b) :
    (Except.ok x >>= k) = k x := rfl

theorem exceptBind_error {e a b : Type} (s : e) (k : a → Except e b) :
    ((Except.error s : Except e a) >>= k) = Except.error s := rfl

theorem bind_dfCol_inv (t : DFrame) (c : String) {b : Type}
    (k : List ℚ → Except String b) (r : b)
    (h : (dfCol t c >>= k) = .ok r) :
    c ∈ t.columns ∧ k (t.rows.map (fun row => rowGet row c)) = .ok r := by
  by_cases hc : c ∈ t.columns
  · rw [dfCol_ok t c hc, exceptBind_ok] at h
    exact ⟨hc, h⟩
  · rw [dfCol_error t c hc, exceptBind_error] at h
    exact absurd h (by simp)

theorem mem_dfSetCol_self (t : DFrame) (c : String) (vs : List ℚ) :
    c ∈ (dfSetCol t c vs).columns := by
  simp only [dfSetCol]
  split_ifs with h
  · exact h
  · simp

theorem mem_dfSetCol_of (t : DFrame) (c c' : String) (vs : List ℚ)
    (h : c' ∈ t.columns) : c' ∈ (dfSetCol t c vs).columns := by
  simp only [dfSetCol]
  split_ifs
  · exact h
  · exact List.mem_append_left _ h

theorem mem_dfSetCol_iff (t : DFrame) (c c' : String) (vs : List ℚ)
    (hne : c' ≠ c) : c' ∈ (dfSetCol t c vs).columns ↔ c' ∈ t.columns := by
  simp only [dfSetCol]
  split_ifs
  · exact Iff.rfl
  · simp [hne]

theorem dfDrop_columns_of_ok (t : DFrame) (cs : List String) (fz : DFrame)
    (h : dfDrop t cs = .ok fz) :
    fz.columns = t.columns.filter (fun c => !(cs.contains c)) := by
  unfold dfDrop at h
  by_cases hall : cs.all (fun c => t.columns.contains c)
  · rw [if_pos hall] at h
    simp only [Except.ok.injEq] at h
    rw [← h]
  · rw [if_neg hall] at h
    exact absurd h (by simp)

theorem map_eq_self_of {a : Type} (l : List a) (g : a → a)
    (h : ∀ x ∈ l, g x = x) : l.map g = l := by
  induction l with
  | nil => rfl
  | cons x xs ih =>
    rw [List.map_cons, h x (List.mem_cons_self x xs),
      ih (fun y hy => h y (List.mem_cons_of_mem x hy))]

theorem DFrame_eq (t1 t2 : DFrame) (h1 : t1.columns = t2.columns)
    (h2 : t1.rows = t2.rows) : t1 = t2 := by
  cases t1
  cases t2
  simp_all

theorem l2aGuards_inv (t1 f : DFrame) (h : l2aGuards t1 = .ok f) :
    "quality_flag" ∈ t1.columns ∧ "sensitivity_a0" ∈ t1.columns
    ∧ "sensitivity_a2" ∈ t1.columns ∧ "degrade_flag" ∈ t1.columns
    ∧ "rh_100" ∈ t1.columns ∧ "surface_flag" ∈ t1.columns
    ∧ f = dfFilterRows t1 (t1.rows.map l2aRowPred) := by
  unfold l2aGuards at h
  obtain ⟨m3, h⟩ := bind_dfCol_inv _ _ _ _ h
  obtain ⟨m4, h⟩ := bind_dfCol_inv _ _ _ _ h
  obtain ⟨m5, h⟩ := bind_dfCol_inv _ _ _ _ h
  obtain ⟨m6, h⟩ := bind_dfCol_inv _ _ _ _ h
  obtain ⟨m7, h⟩ := bind_dfCol_inv _ _ _ _ h
  obtain ⟨m8, h⟩ := bind_dfCol_inv _ _ _ _ h
  simp only [Except.ok.injEq] at h
  exact ⟨m3, m4, m5, m6, m7, m8, h.symm⟩

theorem l2aGuards_eq (t1 : DFrame)
    (m3 : "quality_flag" ∈ t1.columns) (m4 : "sensitivity_a0" ∈ t1.columns)
    (m5 : "sensitivity_a2" ∈ t1.columns) (m6 : "degrade_flag" ∈ t1.columns)
    (m7 : "rh_100" ∈ t1.columns) (m8 : "surface_flag" ∈ t1.columns) :
    l2aGuards t1 = .ok (dfFilterRows t1 (t1.rows.map l2aRowPred)) := by
  unfold l2aGuards
  rw [dfCol_ok _ _ m3, exceptBind_ok, dfCol_ok _ _ m4, exceptBind_ok,
    dfCol_ok _ _ m5, exceptBind_ok, dfCol_ok _ _ m6, exceptBind_ok,
    dfCol_ok _ _ m7, exceptBind_ok, dfCol_ok _ _ m8, exceptBind_ok]

theorem l2aFilterRows_inv (t f : DFrame) (h : l2aFilterRows t = .ok f) :
    "elev_lowestmode" ∈ t.columns ∧ "dem_tandemx" ∈ t.columns
    ∧ l2aGuards (dfSetCol t "elevation_difference_tdx"
        (List.zipWith (fun a b => a - b)
          (t.rows.map (fun r => rowGet r "elev_lowestmode"))
          (t.rows.map (fun r => rowGet r "dem_tandemx")))) = .ok f := by
  unfold l2aFilterRows at h
  obtain ⟨h1, h⟩ := bind_dfCol_inv _ _ _ _ h
  obtain ⟨h2, h⟩ := bind_dfCol_inv _ _ _ _ h
  exact ⟨h1, h2, h⟩

theorem l2aFilterRows_idem (t f : DFrame) (h : l2aFilterRows t = .ok f) :
    l2aFilterRows f = .ok f := by
  obtain ⟨h1, h2, hg⟩ := l2aFilterRows_inv t f h
  obtain ⟨m3, m4, m5, m6, m7, m8, hf⟩ := l2aGuards_inv _ f hg
  have hvs : List.zipWith (fun a b => a - b)
      (t.rows.map (fun r => rowGet r "elev_lowestmode"))
      (t.rows.map (fun r => rowGet r "dem_tandemx"))
      = t.rows.map (fun r =>
          rowGet r "elev_lowestmode" - rowGet r "dem_tandemx") :=
    zipWith_map_same t.rows _ _ (fun a b => a - b)
  have ht1rows : (dfSetCol t "elevation_difference_tdx"
      (List.zipWith (fun a b => a - b)
        (t.rows.map (fun r => rowGet r "elev_lowestmode"))
        (t.rows.map (fun r => rowGet r "dem_tandemx")))).rows
      = t.rows.map (fun r => rowSet r "elevation_difference_tdx"
          (rowGet r "elev_lowestmode" - rowGet r "dem_tandemx")) := by
    rw [hvs]
    exact dfSetCol_rows_of_map t _ _
  have hfrows : f.rows = (dfSetCol t "elevation_difference_tdx"
      (List.zipWith (fun a b => a - b)
        (t.rows.map (fun r => rowGet r "elev_lowestmode"))
        (t.rows.map (fun r => rowGet r "dem_tandemx")))).rows.filter l2aRowPred := by
    rw [hf]
    exact dfFilterRows_rows_of_map _ _
  have hfcols : f.columns = (dfSetCol t "elevation_difference_tdx"
      (List.zipWith (fun a b => a - b)
        (t.rows.map (fun r => rowGet r "elev_lowestmode"))
        (t.rows.map (fun r => rowGet r "dem_tandemx")))).columns := by
    rw [hf]
    rfl
  have hediff : "elevation_difference_tdx" ∈ f.columns := by
    rw [hfcols]
    exact mem_dfSetCol_self _ _ _
  have hef : "elev_lowestmode" ∈ f.columns := by
    rw [hfcols]
    exact mem_dfSetCol_of _ _ _ _ h1
  have hdf : "dem_tandemx" ∈ f.columns := by
    rw [hfcols]
    exact mem_dfSetCol_of _ _ _ _ h2
  have hrowform : ∀ r ∈ f.rows, ∃ r0,
      r = rowSet r0 "elevation_difference_tdx"
        (rowGet r0 "elev_lowestmode" - rowGet r0 "dem_tandemx") := by
    intro r hr
    rw [hfrows, ht1rows] at hr
    have hr2 := List.mem_of_mem_filter hr
    rcases List.mem_map.mp hr2 with ⟨r0, _, hr0⟩
    exact ⟨r0, hr0.symm⟩
  have K1 : dfSetCol f "elevation_difference_tdx"
      (List.zipWith (fun a b => a - b)
        (f.rows.map (fun r => rowGet r "elev_lowestmode"))
        (f.rows.map (fun r => rowGet r "dem_tandemx"))) = f := by
    apply DFrame_eq
    · simp only [dfSetCol, hediff, if_pos]
    · rw [zipWith_map_same f.rows _ _ (fun a b => a - b),
        dfSetCol_rows_of_map f _ _]
      apply map_eq_self_of
      intro r hr
      rcases hrowform r hr with ⟨r0, rfl⟩
      rw [rowGet_rowSet_ne _ _ _ _ (by decide),
        rowGet_rowSet_ne _ _ _ _ (by decide), rowSet_rowSet_self]
  have hfix : dfFilterRows f (f.rows.map l2aRowPred) = f := by
    apply DFrame_eq
    · rfl
    · rw [dfFilterRows_rows_of_map, List.filter_eq_self]
      intro r hr
      rw [hfrows] at hr
      exact List.of_mem_filter hr
  unfold l2aFilterRows
  rw [dfCol_ok f _ hef, exceptBind_ok, dfCol_ok f _ hdf, exceptBind_ok, K1,
    l2aGuards_eq f (hfcols ▸ m3) (hfcols ▸ m4) (hfcols ▸ m5) (hfcols ▸ m6)
      (hfcols ▸ m7) (hfcols ▸ m8), hfix]

theorem l2aQualityFilter_reapply (t fz : DFrame)
    (h : l2aQualityFilter t = .ok fz) :
    l2aQualityFilter fz = .error ("KeyError: quality_flag") := by
  unfold l2aQualityFilter at h
  rcases hx : l2aFilterRows t with e | f
  · rw [hx, exceptBind_error] at h
    exact absurd h (by simp)
  · rw [hx, exceptBind_ok] at h
    obtain ⟨h1, h2, hg⟩ := l2aFilterRows_inv t f hx
    obtain ⟨_, _, _, _, _, _, hf⟩ := l2aGuards_inv _ f hg
    have hfcols : f.columns = (dfSetCol t "elevation_difference_tdx"
        (List.zipWith (fun a b => a - b)
          (t.rows.map (fun r => rowGet r "elev_lowestmode"))
          (t.rows.map (fun r => rowGet r "dem_tandemx")))).columns := by
      rw [hf]
      rfl
    have hcolfz := dfDrop_columns_of_ok f _ fz h
    have hefz : "elev_lowestmode" ∈ fz.columns := by
      rw [hcolfz, List.mem_filter]
      refine ⟨?_, by decide⟩
      rw [hfcols]
      exact mem_dfSetCol_of _ _ _ _ h1
    have hdfz : "dem_tandemx" ∈ fz.columns := by
      rw [hcolfz, List.mem_filter]
      refine ⟨?_, by decide⟩
      rw [hfcols]
      exact mem_dfSetCol_of _ _ _ _ h2
    have hqfz : ¬("quality_flag" ∈ fz.columns) := by
      rw [hcolfz]
      intro hc
      rw [List.mem_filter] at hc
      exact absurd hc.2 (by decide)
    have hq1 : ¬("quality_flag" ∈ (dfSetCol fz "elevation_difference_tdx"
        (List.zipWith (fun a b => a - b)
          (fz.rows.map (fun r => rowGet r "elev_lowestmode"))
          (fz.rows.map (fun r => rowGet r "dem_tandemx")))).columns) := by
      rw [mem_dfSetCol_iff _ _ _ _ (by decide)]
      exact hqfz
    unfold l2aQualityFilter l2aFilterRows l2aGuards
    rw [dfCol_ok fz _ hefz, exceptBind_ok, dfCol_ok fz _ hdfz, exceptBind_ok,
      dfCol_error _ _ hq1]
    rw [exceptBind_error, exceptBind_error]
    rfl

theorem l4aStage3_inv (t2 f : DFrame) (h : l4aStage3 t2 = .ok f) :
    "gridded_water_persistence" ∈ t2.columns
    ∧ "gridded_urban_proportion" ∈ t2.columns
    ∧ f = dfFilterRows t2 (t2.rows.map l4aRowPred3) := by
  unfold l4aStage3 at h
  obtain ⟨m1, h⟩ := bind_dfCol_inv _ _ _ _ h
  obtain ⟨m2, h⟩ := bind_dfCol_inv _ _ _ _ h
  simp only [Except.ok.injEq] at h
  exact ⟨m1, m2, h.symm⟩

theorem l4aStage2_inv (t1 f : DFrame) (h : l4aStage2 t1 = .ok f) :
    "gridded_pft_class" ∈ t1.columns ∧ "sensitivity_a2" ∈ t1.columns
    ∧ l4aStage3 (dfFilterRows t1 (t1.rows.map l4aRowPred2)) = .ok f := by
  unfold l4aStage2 at h
  obtain ⟨m1, h⟩ := bind_dfCol_inv _ _ _ _ h
  obtain ⟨m2, h⟩ := bind_dfCol_inv _ _ _ _ h
  exact ⟨m1, m2, h⟩

theorem l4aFilterRows_inv (t f : DFrame) (h : l4aFilterRows t = .ok f) :
    "l2_quality_flag" ∈ t.columns ∧ "l4_quality_flag" ∈ t.columns
    ∧ "algorithm_run_flag" ∈ t.columns ∧ "sensitivity_a0" ∈ t.columns
    ∧ "sensitivity_a2" ∈ t.columns ∧ "degrade_flag" ∈ t.columns
    ∧ "surface_flag" ∈ t.columns
    ∧ l4aStage2 (dfFilterRows t (t.rows.map l4aRowPred1)) = .ok f := by
  unfold l4aFilterRows at h
  obtain ⟨m1, h⟩ := bind_dfCol_inv _ _ _ _ h
  obtain ⟨m2, h⟩ := bind_dfCol_inv _ _ _ _ h
  obtain ⟨m3, h⟩ := bind_dfCol_inv _ _ _ _ h
  obtain ⟨m4, h⟩ := bind_dfCol_inv _ _ _ _ h
  obtain ⟨m5, h⟩ := bind_dfCol_inv _ _ _ _ h
  obtain ⟨m6, h⟩ := bind_dfCol_inv _ _ _ _ h
  obtain ⟨m7, h⟩ := bind_dfCol_inv _ _ _ _ h
  exact ⟨m1, m2, m3, m4, m5, m6, m7, h⟩

theorem l4aFilterRows_idem (t f : DFrame) (h : l4aFilterRows t = .ok f) :
    l4aFilterRows f = .ok f := by
  obtain ⟨m1, m2, m3, m4, m5, m6, m7, h2⟩ := l4aFilterRows_inv t f h
  obtain ⟨m8, m9, h3⟩ := l4aStage2_inv _ f h2
  obtain ⟨m10, m11, hf⟩ := l4aStage3_inv _ f h3
  have hfcols : f.columns = t.columns := by
    rw [hf]
    rfl
  have hfrows : f.rows =
      ((t.rows.filter l4aRowPred1).filter l4aRowPred2).filter l4aRowPred3 := by
    rw [hf, dfFilterRows_rows_of_map]
    have e2 : (dfFilterRows t (t.rows.map l4aRowPred1)).rows
        = t.rows.filter l4aRowPred1 := dfFilterRows_rows_of_map _ _
    have e3 : (dfFilterRows (dfFilterRows t (t.rows.map l4aRowPred1))
        ((dfFilterRows t (t.rows.map l4aRowPred1)).rows.map l4aRowPred2)).rows
        = (t.rows.filter l4aRowPred1).filter l4aRowPred2 := by
      rw [dfFilterRows_rows_of_map, e2]
    rw [e3]
  have hp1 : ∀ r ∈ f.rows, l4aRowPred1 r = true := by
    intro r hr
    rw [hfrows] at hr
    exact List.of_mem_filter (List.mem_of_mem_filter (List.mem_of_mem_filter hr))
  have hp2 : ∀ r ∈ f.rows, l4aRowPred2 r = true := by
    intro r hr
    rw [hfrows] at hr
    exact List.of_mem_filter (List.mem_of_mem_filter hr)
  have hp3 : ∀ r ∈ f.rows, l4aRowPred3 r = true := by
    intro r hr
    rw [hfrows] at hr
    exact List.of_mem_filter hr
  have s1 : dfFilterRows f (f.rows.map l4aRowPred1) = f := by
    apply DFrame_eq
    · rfl
    · rw [dfFilterRows_rows_of_map, List.filter_eq_self]
      exact hp1
  have s2 : dfFilterRows f (f.rows.map l4aRowPred2) = f := by
    apply DFrame_eq
    · rfl
    · rw [dfFilterRows_rows_of_map, List.filter_eq_self]
      exact hp2
  have s3 : dfFilterRows f (f.rows.map l4aRowPred3) = f := by
    apply DFrame_eq
    · rfl
    · rw [dfFilterRows_rows_of_map, List.filter_eq_self]
      exact hp3
  have hm1 : "l2_quality_flag" ∈ f.columns := by rw [hfcols]; exact m1
  have hm2 : "l4_quality_flag" ∈ f.columns := by rw [hfcols]; exact m2
  have hm3 : "algorithm_run_flag" ∈ f.columns := by rw [hfcols]; exact m3
  have hm4 : "sensitivity_a0" ∈ f.columns := by rw [hfcols]; exact m4
  have hm5 : "sensitivity_a2" ∈ f.columns := by rw [hfcols]; exact m5
  have hm6 : "degrade_flag" ∈ f.columns := by rw [hfcols]; exact m6
  have hm7 : "surface_flag" ∈ f.columns := by rw [hfcols]; exact m7
  have hm8 : "gridded_pft_class" ∈ f.columns := by
    rw [hfcols]
    have : (dfFilterRows t (t.rows.map l4aRowPred1)).columns = t.columns := rfl
    rw [← this]
    exact m8
  have hm10 : "gridded_water_persistence" ∈ f.columns := by
    rw [hfcols]
    have : (dfFilterRows (dfFilterRows t (t.rows.map l4aRowPred1))
        ((dfFilterRows t (t.rows.map l4aRowPred1)).rows.map l4aRowPred2)).columns
        = t.columns := rfl
    rw [← this]
    exact m10
  have hm11 : "gridded_urban_proportion" ∈ f.columns := by
    rw [hfcols]
    have : (dfFilterRows (dfFilterRows t (t.rows.map l4aRowPred1))
        ((dfFilterRows t (t.rows.map l4aRowPred1)).rows.map l4aRowPred2)).columns
        = t.columns := rfl
    rw [← this]
    exact m11
  unfold l4aFilterRows
  rw [dfCol_ok f _ hm1, exceptBind_ok, dfCol_ok f _ hm2, exceptBind_ok,
    dfCol_ok f _ hm3, exceptBind_ok, dfCol_ok f _ hm4, exceptBind_ok,
    dfCol_ok f _ hm5, exceptBind_ok, dfCol_ok f _ hm6, exceptBind_ok,
    dfCol_ok f _ hm7, exceptBind_ok, s1]
  unfold l4aStage2
  rw [dfCol_ok f _ hm8, exceptBind_ok, dfCol_ok f _ hm5, exceptBind_ok, s2]
  unfold l4aStage3
  rw [dfCol_ok f _ hm10, exceptBind_ok, dfCol_ok f _ hm11, exceptBind_ok, s3]

theorem l4aQualityFilter_reapply (t fz : DFrame)
    (h : l4aQualityFilter t = .ok fz) :
    l4aQualityFilter fz = .error ("KeyError: l2_quality_flag") := by
  unfold l4aQualityFilter at h
  rcases hx : l4aFilterRows t with e | f
  · rw [hx, exceptBind_error] at h
    exact absurd h (by simp)
  · rw [hx, exceptBind_ok] at h
    obtain ⟨m1, _, _, _, _, _, _, h2⟩ := l4aFilterRows_inv t f hx
    obtain ⟨_, _, h3⟩ := l4aStage2_inv _ f h2
    obtain ⟨_, _, hf⟩ := l4aStage3_inv _ f h3
    have hcolfz := dfDrop_columns_of_ok f _ fz h
    have hqfz : ¬("l2_quality_flag" ∈ fz.columns) := by
      rw [hcolfz]
      intro hc
      rw [List.mem_filter] at hc
      exact absurd hc.2 (by decide)
    unfold l4aQualityFilter l4aFilterRows
    rw [dfCol_error fz _ hqfz]
    rw [exceptBind_error, exceptBind_error]
    rfl

/-- Counterexample for C1: on a one-row L2A table that passes every
predicate, re-applying the quality filter raises `KeyError: quality_flag`
(the first filter dropped that column), so `filter (filter x)` is not
`filter x` — the first application succeeds, the second raises. -/
theorem quality_filter_not_idempotent_counterexample :
    (l2aQualityFilter l2aExample).bind l2aQualityFilter
      ≠ l2aQualityFilter l2aExample
    ∧ (l2aQualityFilter l2aExample).bind l2aQualityFilter
      = .error ("KeyError: quality_flag")
    ∧ (l2aQualityFilter l2aExample).isOk = true := by
  decide

/-- Claim C1 (amended): quality filtering is not re-applicable as stated —
because the filter drops its predicate columns, applying a product's
`quality_filter` to an already-filtered table raises a missing-column
`KeyError` instead of returning the table unchanged; the row-selection
stage alone is idempotent: re-applying the selection (with the predicate
columns retained) returns its input unchanged.  Both cited products, L2A
and L4A, behave this way. -/
theorem quality_filter_reapplication :
    (∀ t fz : DFrame, l2aQualityFilter t = .ok fz →
      l2aQualityFilter fz = .error ("KeyError: quality_flag"))
    ∧ (∀ t f : DFrame, l2aFilterRows t = .ok f → l2aFilterRows f = .ok f)
    ∧ (∀ t fz : DFrame, l4aQualityFilter t = .ok fz →
      l4aQualityFilter fz = .error ("KeyError: l2_quality_flag"))
    ∧ (∀ t f : DFrame, l4aFilterRows t = .ok f → l4aFilterRows f = .ok f) :=
  ⟨l2aQualityFilter_reapply, l2aFilterRows_idem,
   l4aQualityFilter_reapply, l4aFilterRows_idem⟩

/-- Witness for C1 (amended), at concrete tables with the product's filter
columns: a filtered L2A/L4A table raises on re-filtering, and the
row-selection stages are fixed on their own outputs. -/
theorem quality_filter_reapplication_witness :
    l2aQualityFilter (DFrame.mk ["shot_number", "sensitivity_a0",
        "sensitivity_a2", "degrade_flag", "rh_100", "elev_lowestmode",
        "dem_tandemx"] [])
      = .error ("KeyError: quality_flag")
    ∧ l2aFilterRows (DFrame.mk (l2aColumns ++ ["elevation_difference_tdx"]) [])
      = .ok (DFrame.mk (l2aColumns ++ ["elevation_difference_tdx"]) [])
    ∧ l4aQualityFilter (DFrame.mk ["shot_number", "sensitivity_a0",
        "sensitivity_a2", "degrade_flag", "gridded_pft_class",
        "gridded_water_persistence", "gridded_urban_proportion"] [])
      = .error ("KeyError: l2_quality_flag")
    ∧ l4aFilterRows (DFrame.mk l4aColumns []) = .ok (DFrame.mk l4aColumns []) :=
  ⟨quality_filter_reapplication.1 (DFrame.mk l2aColumns []) _ (by decide),
   quality_filter_reapplication.2.1
     (DFrame.mk (l2aColumns ++ ["elevation_difference_tdx"]) []) _ (by decide),
   quality_filter_reapplication.2.2.1 (DFrame.mk l4aColumns []) _ (by decide),
   quality_filter_reapplication.2.2.2 (DFrame.mk l4aColumns []) _ (by decide)⟩
